import Mathlib

/-!
Shallow embedding of the AgentBasedModel multi-venue market simulator
(`src/AgentBasedModel/agents/agents.py`) and proofs about the claims of its
specification.  Prices and cash are rationals, Python ints are `ℤ`/`ℕ`, and
fallible Python code (uncaught `raise`, `IndexError`, `TypeError`,
`AttributeError`) is embedded in `Except String`.  Random draws are passed
to the embedded functions as explicit arguments.  The order-container module
`AgentBasedModel.utils` (classes `Order`, `OrderList`, functions `exp`,
`mean`) is not part of the sources; those pieces are modelled from the
specification (§3, §4.1) and marked as such.  The transcendental `exp` is
kept abstract as a function argument `E`.
-/

namespace ABM

/-- Side of an order: the Python strings `'bid'` and `'ask'`. -/
inductive Side where
  | bid
  | ask
deriving DecidableEq

/-- Modelled from the spec: the `Order` record of the missing
`AgentBasedModel.utils` module (spec §3): price, quantity, side, venue id,
and an optional back-reference to the issuing trader (here the trader's id,
`none` for book-initialisation orders). -/
structure Order where
  price : ℚ
  qty : ℤ
  order_type : Side
  market_id : ℕ
  trader : Option ℕ
deriving DecidableEq

/-- Python `round` to the nearest integer with ties to even (banker's
rounding), idealised over `ℚ`. -/
def pyRound (x : ℚ) : ℤ :=
  let f := ⌊x⌋
  if x - f < 1/2 then f
  else if (1 : ℚ)/2 < x - f then f + 1
  else if f % 2 = 0 then f else f + 1

/-- Python `round(x, 1)`: one decimal place. -/
def pyRound1 (x : ℚ) : ℚ := (pyRound (10 * x) : ℚ) / 10

/-- Modelled from the spec: `OrderList.first` (§4.1); `none` on an empty list. -/
def olFirst (l : List Order) : Option Order := l.head?

/-- Modelled from the spec: `OrderList.last`, the least aggressive resting
order (§3); `none` on an empty list. -/
def olLast (l : List Order) : Option Order := l.getLast?

/-- Modelled from the spec: whether `o` is strictly more aggressive than the
resting order `r` on a side (§4.1): a strictly higher bid or a strictly
lower ask.  Equal prices are not more aggressive, giving FIFO at a level. -/
def moreAggressive (side : Side) (o r : Order) : Bool :=
  match side with
  | .bid => r.price < o.price
  | .ask => o.price < r.price

/-- Modelled from the spec: `OrderList.insert` (§4.1) keeping price-time
priority; resting orders with equal price precede the inserted order. -/
def olInsert (side : Side) (o : Order) : List Order → List Order
  | [] => [o]
  | r :: rs => if moreAggressive side o r then o :: r :: rs else r :: olInsert side o rs

/-- Modelled from the spec: `OrderList.remove` (§4.1): remove the first
matching resting order, silently doing nothing if absent. -/
def olRemove (o : Order) (l : List Order) : List Order := l.erase o

/-- Modelled from the spec: price compatibility of `fulfill` (§4.1), given
the side of the resting list: an incoming bid matches a resting ask with
`r.price ≤ incoming.price`, an incoming ask matches a resting bid with
`incoming.price ≤ r.price`. -/
def priceCompatible (restingSide : Side) (incoming r : Order) : Bool :=
  match restingSide with
  | .ask => r.price ≤ incoming.price
  | .bid => incoming.price ≤ r.price

/-- Modelled from the spec: `OrderList.fulfill` (§4.1): walk the resting
orders from the head, trading `min` quantities at the resting price, until
the incoming order is exhausted or the next resting order is not price
compatible.  Returns the updated resting list and the remaining incoming
order.  The cash/asset settlement of §4.1 (scaled by `t_cost`) only touches
trader accounts, which none of the verified claims observe, so the
`t_cost` argument is retained for signature fidelity but the account
updates are not represented in the state. -/
def fulfill (restingSide : Side) (t_cost : ℚ) : List Order → Order → List Order × Order
  | [], o => ([], o)
  | r :: rs, o =>
    if o.qty ≤ 0 then (r :: rs, o)
    else if ¬ priceCompatible restingSide o r then (r :: rs, o)
    else
      let t := min o.qty r.qty
      let o' := { o with qty := o.qty - t }
      if r.qty - t ≤ 0 then fulfill restingSide t_cost rs o'
      else ({ r with qty := r.qty - t } :: rs, o')

/-- The Python dict `{'bid': float, 'ask': float}` returned by
`ExchangeAgent.spread`. -/
structure SpreadQ where
  bid : ℚ
  ask : ℚ
deriving DecidableEq

/-- `ExchangeAgent` state (`agents.py` lines 8-33).  The bookkeeping fields
`id`, `name` and `volume` are not used by any verified claim and are
omitted; `order_book['bid']`/`order_book['ask']` are the `bids`/`asks`
lists. -/
structure ExchangeAgent where
  bids : List Order
  asks : List Order
  dividend_book : List ℚ
  risk_free : ℚ
  transaction_cost : ℚ
deriving DecidableEq

/-- `ExchangeAgent.spread` (lines 80-88): best bid and ask prices when both
sides are non-empty, otherwise the uncaught `raise Exception`. -/
def ExchangeAgent.spread (ex : ExchangeAgent) : Except String SpreadQ :=
  match ex.bids.head?, ex.asks.head? with
  | some b, some a => .ok ⟨b.price, a.price⟩
  | _, _ => .error "There no either bid or ask orders"

/-- `ExchangeAgent.price` (lines 100-108): the mid price rounded to one
decimal; the exception of `spread` propagates.  The Python guard
`if spread:` is always true on a returned dict, so the second `raise` is
dead code. -/
def ExchangeAgent.price (ex : ExchangeAgent) : Except String ℚ :=
  ex.spread.map (fun s => pyRound1 ((s.bid + s.ask) / 2))

/-- `ExchangeAgent.limit_order` (lines 124-141).  The initial
`self.spread()` raises when either book side is empty; when it succeeds,
the Python truthiness guard `if not bid or not ask` returns without action
when either best price equals `0`.  A marketable order is matched via
`fulfill` with the exchange's transaction cost and any positive remainder
is inserted on its own side. -/
def ExchangeAgent.limit_order (ex : ExchangeAgent) (o : Order) : Except String ExchangeAgent :=
  match ex.spread with
  | .error e => .error e
  | .ok s =>
    if s.bid = 0 ∨ s.ask = 0 then .ok ex
    else if o.order_type = .bid then
      let fo := if s.ask ≤ o.price then fulfill .ask ex.transaction_cost ex.asks o else (ex.asks, o)
      if 0 < fo.2.qty then .ok { ex with asks := fo.1, bids := olInsert .bid fo.2 ex.bids }
      else .ok { ex with asks := fo.1 }
    else
      let fo := if o.price ≤ s.bid then fulfill .bid ex.transaction_cost ex.bids o else (ex.bids, o)
      if 0 < fo.2.qty then .ok { ex with bids := fo.1, asks := olInsert .ask fo.2 ex.asks }
      else .ok { ex with bids := fo.1 }

/-- `ExchangeAgent.market_order` (lines 143-149): fulfill against the
opposite side; returns the updated exchange and the possibly unfilled
order. -/
def ExchangeAgent.market_order (ex : ExchangeAgent) (o : Order) : ExchangeAgent × Order :=
  match o.order_type with
  | .bid =>
    let fo := fulfill .ask ex.transaction_cost ex.asks o
    ({ ex with asks := fo.1 }, fo.2)
  | .ask =>
    let fo := fulfill .bid ex.transaction_cost ex.bids o
    ({ ex with bids := fo.1 }, fo.2)

/-- `ExchangeAgent.cancel_order` (lines 151-155): remove the order from the
list of its side. -/
def ExchangeAgent.cancel_order (ex : ExchangeAgent) (o : Order) : ExchangeAgent :=
  match o.order_type with
  | .bid => { ex with bids := olRemove o ex.bids }
  | .ask => { ex with asks := olRemove o ex.asks }

/-- Dividend part of `ExchangeAgent._fill_book` (lines 68-71): starting from
`div = rf * price`, append `max(div, 0)` one hundred times, multiplying
`div` by a fresh draw of `_next_dividend()` after each append.  The random
multipliers are passed as a list, one per loop iteration. -/
def fill_dividend_book : ℚ → List ℚ → List ℚ
  | _, [] => []
  | d, m :: ms => max d 0 :: fill_dividend_book (d * m) ms

/-- `ExchangeAgent.generate_dividend` (lines 36-43), acting on the
`dividend_book` list: read `dividend_book[-1]` (an `IndexError` on an empty
book), append `max(d * mult, 0)` and pop the head.  The random multiplier
`_next_dividend()` is passed as a parameter. -/
def ExchangeAgent.generate_dividend (book : List ℚ) (mult : ℚ) : Except String (List ℚ) :=
  match book.getLast? with
  | none => .error "IndexError"
  | some d0 => .ok ((book ++ [max (d0 * mult) 0]).drop 1)

/-- `ExchangeAgent.dividend` with an `access` argument (lines 110-118):
the slice `dividend_book[:access]`. -/
def ExchangeAgent.dividend (ex : ExchangeAgent) (access : ℕ) : List ℚ :=
  ex.dividend_book.take access

/-- Every entry of the list is nonnegative. -/
def allNonneg (l : List ℚ) : Prop := ∀ x ∈ l, 0 ≤ x

/-- `Fundamentalist.evaluate` (lines 352-365): perpetuity on the last known
dividend plus the discounted sum of the earlier ones; `divs[-1]` raises an
`IndexError` on an empty window. -/
def Fundamentalist.evaluate (dividends : List ℚ) (risk_free : ℚ) : Except String ℚ :=
  match dividends.getLast? with
  | none => .error "IndexError"
  | some dl =>
    let r := risk_free
    let n := dividends.length
    let perp := dl / r / (1 + r) ^ (n - 1)
    let known : ℚ :=
      if 1 < n then ((List.range (n - 1)).map (fun i => dividends.getD i 0 / (1 + r) ^ (i + 1))).sum
      else 0
    .ok (known + perp)

/-- The value claim C2 ascribes to `evaluate`: with `n` the window length,
the sum over `i = 1..n-1` of `divs[i] / (1+r)^i` (0-indexed window access)
plus `divs[n-1] / (r * (1+r)^(n-1))`. -/
def evaluateClaimValue (dividends : List ℚ) (r : ℚ) : ℚ :=
  (∑ i ∈ Finset.Icc 1 (dividends.length - 1), dividends.getD i 0 / (1 + r) ^ i)
    + dividends.getD (dividends.length - 1) 0 / (r * (1 + r) ^ (dividends.length - 1))

/-- Bridge between a Python list-comprehension sum and a `Finset.range` sum. -/
theorem list_range_map_sum (g : ℕ → ℚ) (n : ℕ) :
    ((List.range n).map g).sum = ∑ i ∈ Finset.range n, g i := by
  induction n with
  | zero => simp
  | succ k ih => rw [List.range_succ, Finset.sum_range_succ]; simp [ih]

/-- Reindexing a sum over `Icc 1 k` as a sum over `range k`. -/
theorem sum_Icc_one (g : ℕ → ℚ) (k : ℕ) :
    (∑ i ∈ Finset.Icc 1 k, g i) = ∑ i ∈ Finset.range k, g (1 + i) := by
  rw [← Nat.Ico_succ_right, Finset.sum_Ico_eq_sum_range]
  simp

/-- C2 is refuted at the two-element window `[1, 2]` with `r = 1`: the code
returns `known + perp = 1/2 + 1 = 3/2`, discounting `divs[0]` by `(1+r)^1`,
while the claim's formula discounts `divs[1]` there and gives `1 + 1 = 2`. -/
theorem claim_C2_counterexample :
    Fundamentalist.evaluate [1, 2] 1 = .ok (3/2) ∧
    evaluateClaimValue [1, 2] 1 = 2 ∧ ((3 : ℚ)/2) ≠ 2 := by
  refine ⟨?_, ?_, by norm_num⟩
  · norm_num [Fundamentalist.evaluate, show List.range 1 = [0] from rfl]
  · simp only [evaluateClaimValue]
    rw [show Finset.Icc 1 (List.length [(1 : ℚ), 2] - 1) = {1} from rfl]
    norm_num

/-- C2 amended: for a window of length `n ≥ 1` and rate `r > 0`,
`Fundamentalist.evaluate` returns
`Σ_{i=1..n-1} div_{i-1}/(1+r)^i + div_{n-1}/(r·(1+r)^{n-1})`: the summand at
discount exponent `i` uses the `(i-1)`-th element of the 0-indexed window,
one position earlier than the claim stated. -/
theorem claim_C2_evaluate (dividends : List ℚ) (r : ℚ) (n : ℕ) (dl : ℚ)
    (hn : dividends.length = n) (h1 : 1 ≤ n) (_hr : 0 < r)
    (hlast : dividends.getLast? = some dl) :
    Fundamentalist.evaluate dividends r =
      .ok ((∑ i ∈ Finset.Icc 1 (n - 1), dividends.getD (i - 1) 0 / (1 + r) ^ i)
        + dl / (r * (1 + r) ^ (n - 1))) := by
  have heval : Fundamentalist.evaluate dividends r =
      .ok ((if 1 < dividends.length then
              ((List.range (dividends.length - 1)).map
                (fun i => dividends.getD i 0 / (1 + r) ^ (i + 1))).sum
            else 0)
        + dl / r / (1 + r) ^ (dividends.length - 1)) := by
    unfold Fundamentalist.evaluate
    rw [hlast]
  rw [heval, hn, div_div]
  have hsum : (if 1 < n then
        ((List.range (n - 1)).map (fun i => dividends.getD i 0 / (1 + r) ^ (i + 1))).sum
      else 0)
      = ∑ i ∈ Finset.Icc 1 (n - 1), dividends.getD (i - 1) 0 / (1 + r) ^ i := by
    rw [sum_Icc_one]
    by_cases hgt : 1 < n
    · rw [if_pos hgt, list_range_map_sum]
      refine Finset.sum_congr rfl (fun i _ => ?_)
      rw [Nat.add_sub_cancel_left, Nat.add_comm 1 i]
    · have h1' : n = 1 := by omega
      subst h1'
      simp
  rw [hsum]

/-- Witness for C2's amended theorem at the window `[1, 2, 4]`, `r = 1`:
`evaluate` gives `1/2 + 2/4 + 4/(1·4) = 2`. -/
theorem claim_C2_witness : Fundamentalist.evaluate [1, 2, 4] 1 = .ok 2 := by
  have h := claim_C2_evaluate [1, 2, 4] 1 3 4 rfl (by norm_num) (by norm_num) rfl
  rw [h]
  rw [show Finset.Icc 1 2 = {1, 2} by rfl]
  norm_num

/-- C3: `spread` returns the best bid and best ask price exactly when both
book sides are non-empty and raises the empty-book exception otherwise;
`price` returns the mid price rounded to one decimal under the same
precondition and fails identically. -/
theorem claim_C3_spread_price
    (ex ex2 : ExchangeAgent) (b a : Order) (bs as : List Order)
    (hb : ex.bids = b :: bs) (ha : ex.asks = a :: as)
    (h2 : ex2.bids = [] ∨ ex2.asks = []) :
    ex.spread = .ok ⟨b.price, a.price⟩ ∧
    ex.price = .ok (pyRound1 ((b.price + a.price) / 2)) ∧
    ex2.spread = .error "There no either bid or ask orders" ∧
    ex2.price = .error "There no either bid or ask orders" := by
  have hsp : ex.spread = .ok ⟨b.price, a.price⟩ := by
    simp [ExchangeAgent.spread, hb, ha]
  have hsp2 : ex2.spread = .error "There no either bid or ask orders" := by
    rcases h2 with h | h
    · simp only [ExchangeAgent.spread, h, List.head?_nil]
    · simp only [ExchangeAgent.spread, h, List.head?_nil]
      cases ex2.bids.head? <;> rfl
  refine ⟨hsp, ?_, hsp2, ?_⟩
  · simp [ExchangeAgent.price, hsp, Except.map]
  · simp [ExchangeAgent.price, hsp2, Except.map]

/-- Concrete resting bid used by several witnesses. -/
def oB : Order := ⟨99, 2, .bid, 0, none⟩

/-- Concrete resting ask used by several witnesses. -/
def oA : Order := ⟨101, 3, .ask, 0, none⟩

/-- A concrete exchange with one resting bid at 99 and one resting ask at 101. -/
def exW : ExchangeAgent := ⟨[oB], [oA], [1/20], 1/2000, 0⟩

/-- A concrete exchange whose bid side is empty. -/
def exEmptyBid : ExchangeAgent := ⟨[], [oA], [1/20], 1/2000, 0⟩

/-- Witness for C3 on a concrete book: spread `{bid 99, ask 101}`, price
`100`, and the empty-bid exchange fails with the empty-book exception. -/
theorem claim_C3_witness :
    exW.spread = .ok ⟨99, 101⟩ ∧ exW.price = .ok 100 ∧
    exEmptyBid.spread = .error "There no either bid or ask orders" ∧
    exEmptyBid.price = .error "There no either bid or ask orders" := by
  have h := claim_C3_spread_price exW exEmptyBid oB oA [] [] rfl rfl (Or.inl rfl)
  refine ⟨h.1, ?_, h.2.2.1, h.2.2.2⟩
  rw [h.2.1]
  norm_num [pyRound1, pyRound, oB, oA]

/-- The length of the initial dividend book equals the number of multiplier
draws. -/
theorem fill_dividend_book_length (d : ℚ) (ms : List ℚ) :
    (fill_dividend_book d ms).length = ms.length := by
  induction ms generalizing d with
  | nil => rfl
  | cons m ms ih => simp [fill_dividend_book, ih]

/-- Every entry of the initial dividend book is nonnegative. -/
theorem fill_dividend_book_nonneg (d : ℚ) (ms : List ℚ) :
    allNonneg (fill_dividend_book d ms) := by
  induction ms generalizing d with
  | nil => intro x hx; simp [fill_dividend_book] at hx
  | cons m ms ih =>
    intro x hx
    simp only [fill_dividend_book, List.mem_cons] at hx
    rcases hx with h | h
    · rw [h]; exact le_max_right _ _
    · exact ih _ x h

/-- C4: the dividend book built by `_fill_book` from 100 multiplier draws
has length 100 with all entries nonnegative, and `generate_dividend`
preserves both: it pops the head and appends `max(book[-1]·mult, 0)` at the
tail. -/
theorem claim_C4_dividend_book
    (div0 m d0 : ℚ) (mults book : List ℚ)
    (hm : mults.length = 100) (hb : book.length = 100)
    (hpos : allNonneg book) (hlast : book.getLast? = some d0) :
    (fill_dividend_book div0 mults).length = 100 ∧
    allNonneg (fill_dividend_book div0 mults) ∧
    ExchangeAgent.generate_dividend book m = .ok (book.drop 1 ++ [max (d0 * m) 0]) ∧
    (book.drop 1 ++ [max (d0 * m) 0]).length = 100 ∧
    allNonneg (book.drop 1 ++ [max (d0 * m) 0]) := by
  refine ⟨by rw [fill_dividend_book_length, hm], fill_dividend_book_nonneg div0 mults, ?_, ?_, ?_⟩
  · have hgen : ExchangeAgent.generate_dividend book m = .ok ((book ++ [max (d0 * m) 0]).drop 1) := by
      unfold ExchangeAgent.generate_dividend
      rw [hlast]
    rw [hgen]
    congr 1
    exact List.drop_append_of_le_length (show 1 ≤ book.length by omega)
  · simp [hb]
  · intro x hx
    rcases List.mem_append.mp hx with h | h
    · exact hpos x (List.mem_of_mem_drop h)
    · rw [List.mem_singleton.mp h]; exact le_max_right _ _

/-- Witness for C4 on the constant book of 100 entries `1/20` with
multiplier `2`. -/
theorem claim_C4_witness :
    (fill_dividend_book (1/20) (List.replicate 100 1)).length = 100 ∧
    allNonneg (fill_dividend_book (1/20) (List.replicate 100 1)) ∧
    ExchangeAgent.generate_dividend (List.replicate 100 (1/20)) 2 =
      .ok ((List.replicate 100 (1/20 : ℚ)).drop 1 ++ [max ((1/20) * 2) 0]) ∧
    ((List.replicate 100 (1/20 : ℚ)).drop 1 ++ [max ((1/20) * 2) 0]).length = 100 ∧
    allNonneg ((List.replicate 100 (1/20 : ℚ)).drop 1 ++ [max ((1/20) * 2) 0]) := by
  refine claim_C4_dividend_book (1/20) 2 (1/20) (List.replicate 100 1) (List.replicate 100 (1/20))
    (by simp) (by simp) (fun x hx => ?_) (by simp [List.getLast?_replicate])
  rw [List.eq_of_mem_replicate hx]
  norm_num

/-- A concrete incoming bid used by the C1 counterexample. -/
def oIn : Order := ⟨100, 1, .bid, 0, some 7⟩

/-- C1 is refuted on an exchange with an empty bid side: `limit_order` is
not a no-op there; `self.spread()` is called before the emptiness guard and
its exception propagates to the caller. -/
theorem claim_C1_counterexample :
    exEmptyBid.limit_order oIn = .error "There no either bid or ask orders" ∧
    exEmptyBid.limit_order oIn ≠ .ok exEmptyBid := by
  have h : exEmptyBid.limit_order oIn = .error "There no either bid or ask orders" := by
    simp [ExchangeAgent.limit_order, ExchangeAgent.spread, exEmptyBid]
  exact ⟨h, by simp [h]⟩

/-- C1 amended: when both sides are non-empty and neither best price is `0`
(the Python truthiness guard), a bid priced at or above the best ask is
matched by `fulfill` against the ask list with the exchange's transaction
cost and any positive remainder is inserted into the bid list; a bid below
the best ask with positive quantity is inserted directly; asks are
symmetric against the bid list; when either side is empty at entry the
`spread()` exception propagates (an error, not a silent no-op); and when a
best price equals `0` the call returns with no change. -/
theorem claim_C1_limit_order
    (ex : ExchangeAgent) (b a : Order) (bs as : List Order)
    (hb : ex.bids = b :: bs) (ha : ex.asks = a :: as)
    (hb0 : b.price ≠ 0) (ha0 : a.price ≠ 0)
    (oM oR oma omr : Order) (asks' bids' : List Order) (remB remA : Order)
    (hMty : oM.order_type = .bid) (hMge : a.price ≤ oM.price)
    (hMf : fulfill .ask ex.transaction_cost ex.asks oM = (asks', remB))
    (hRty : oR.order_type = .bid) (hRlt : oR.price < a.price) (hRq : 0 < oR.qty)
    (hmty : oma.order_type = .ask) (hmle : oma.price ≤ b.price)
    (hmf : fulfill .bid ex.transaction_cost ex.bids oma = (bids', remA))
    (hrty : omr.order_type = .ask) (hrgt : b.price < omr.price) (hrq : 0 < omr.qty)
    (exE : ExchangeAgent) (oE : Order) (hE : exE.bids = [] ∨ exE.asks = [])
    (exZ : ExchangeAgent) (oZ bz az : Order) (bzs azs : List Order)
    (hzb : exZ.bids = bz :: bzs) (hza : exZ.asks = az :: azs) (hz0 : bz.price = 0 ∨ az.price = 0) :
    ex.limit_order oM = .ok { ex with asks := asks'
                                      bids := if 0 < remB.qty then olInsert .bid remB ex.bids else ex.bids } ∧
    ex.limit_order oR = .ok { ex with bids := olInsert .bid oR ex.bids } ∧
    ex.limit_order oma = .ok { ex with bids := bids'
                                       asks := if 0 < remA.qty then olInsert .ask remA ex.asks else ex.asks } ∧
    ex.limit_order omr = .ok { ex with asks := olInsert .ask omr ex.asks } ∧
    exE.limit_order oE = .error "There no either bid or ask orders" ∧
    exZ.limit_order oZ = .ok exZ := by
  have hsp : ex.spread = .ok ⟨b.price, a.price⟩ := by
    simp [ExchangeAgent.spread, hb, ha]
  refine ⟨?_, ?_, ?_, ?_, ?_, ?_⟩
  · rw [ExchangeAgent.limit_order, hsp]
    simp only [hb0, ha0, or_self, if_false, hMty, if_pos rfl, if_pos hMge, hMf, if_true]
    by_cases hq : 0 < remB.qty
    · simp [hq]
    · simp [hq]
  · rw [ExchangeAgent.limit_order, hsp]
    simp only [hb0, ha0, or_self, if_false, hRty, if_pos rfl, if_neg (not_le.mpr hRlt)]
    simp [hRq]
  · rw [ExchangeAgent.limit_order, hsp]
    have : ¬ oma.order_type = .bid := by rw [hmty]; exact fun h => by cases h
    simp only [hb0, ha0, or_self, if_false, this, if_neg this, if_pos hmle, hmf]
    by_cases hq : 0 < remA.qty
    · simp [hq]
    · simp [hq]
  · rw [ExchangeAgent.limit_order, hsp]
    have : ¬ omr.order_type = .bid := by rw [hrty]; exact fun h => by cases h
    simp only [hb0, ha0, or_self, if_false, this, if_neg this, if_neg (not_le.mpr hrgt)]
    simp [hrq]
  · have hspE : exE.spread = .error "There no either bid or ask orders" := by
      rcases hE with h | h
      · simp only [ExchangeAgent.spread, h, List.head?_nil]
      · simp only [ExchangeAgent.spread, h, List.head?_nil]
        cases exE.bids.head? <;> rfl
    rw [ExchangeAgent.limit_order, hspE]
  · have hspZ : exZ.spread = .ok ⟨bz.price, az.price⟩ := by
      simp [ExchangeAgent.spread, hzb, hza]
    rw [ExchangeAgent.limit_order, hspZ]
    simp [hz0]

/-- A concrete exchange whose best bid price is `0`, triggering the Python
truthiness guard of `limit_order`. -/
def exZeroBid : ExchangeAgent := ⟨[⟨0, 1, .bid, 0, none⟩], [oA], [1/20], 1/2000, 0⟩

/-- Witness for C1's amended theorem on a concrete book with best bid 99 and
best ask 101: a bid at 101 partially consumes the ask, a bid at 100 rests,
an ask at 99 consumes part of the bid, an ask at 100 rests, the empty-bid
exchange raises, and the zero-price book gives an unchanged exchange. -/
theorem claim_C1_witness :
    exW.limit_order ⟨101, 1, .bid, 0, some 7⟩ =
      .ok ⟨[oB], [⟨101, 2, .ask, 0, none⟩], [1/20], 1/2000, 0⟩ ∧
    exW.limit_order oIn = .ok ⟨[oIn, oB], [oA], [1/20], 1/2000, 0⟩ ∧
    exW.limit_order ⟨99, 1, .ask, 0, some 8⟩ =
      .ok ⟨[⟨99, 1, .bid, 0, none⟩], [oA], [1/20], 1/2000, 0⟩ ∧
    exW.limit_order ⟨100, 2, .ask, 0, some 8⟩ =
      .ok ⟨[oB], [⟨100, 2, .ask, 0, some 8⟩, oA], [1/20], 1/2000, 0⟩ ∧
    exEmptyBid.limit_order oIn = .error "There no either bid or ask orders" ∧
    exZeroBid.limit_order oIn = .ok exZeroBid := by
  have h := claim_C1_limit_order exW oB oA [] [] rfl rfl (by norm_num [oB]) (by norm_num [oA])
      ⟨101, 1, .bid, 0, some 7⟩ oIn ⟨99, 1, .ask, 0, some 8⟩ ⟨100, 2, .ask, 0, some 8⟩
      [⟨101, 2, .ask, 0, none⟩] [⟨99, 1, .bid, 0, none⟩]
      ⟨101, 0, .bid, 0, some 7⟩ ⟨99, 0, .ask, 0, some 8⟩
      rfl (by norm_num [oA])
      (by norm_num [exW, fulfill, priceCompatible, oA])
      rfl (by norm_num [oIn, oA]) (by norm_num [oIn])
      rfl (by norm_num [oB])
      (by norm_num [exW, fulfill, priceCompatible, oB])
      rfl (by norm_num [oB]) (by norm_num)
      exEmptyBid oIn (Or.inl rfl)
      exZeroBid oIn ⟨0, 1, .bid, 0, none⟩ oA [] [] rfl rfl (Or.inl (by norm_num))
  refine ⟨?_, ?_, ?_, ?_, h.2.2.2.2.1, h.2.2.2.2.2⟩
  · rw [h.1]
    norm_num [exW]
  · rw [h.2.1]
    norm_num [exW, olInsert, moreAggressive, oIn, oB]
  · rw [h.2.2.1]
    norm_num [exW]
  · rw [h.2.2.2.1]
    norm_num [exW, olInsert, moreAggressive, oB, oA]

/-- Trader core state (`agents.py` lines 158-182): an id (used as the
back-reference on orders it issues), cash, per-venue asset counts, and the
list of resting orders.  Cash and assets are never read by the verified
claims but are kept for structural fidelity. -/
structure Trader where
  tid : ℕ
  cash : ℚ
  assets : List ℤ
  orders : List Order
deriving DecidableEq

/-- The `last` (worst) ask price of venue `j`: `markets[j].order_book['ask'].last.price`,
`none` when the venue index is out of range or the ask side is empty. -/
def lastAskPrice (mkts : List ExchangeAgent) (j : ℕ) : Option ℚ :=
  (mkts[j]?).bind (fun ex => (olLast ex.asks).map (fun o => o.price))

/-- The `last` (worst) bid price of venue `j`, `none` when out of range or
the bid side is empty. -/
def lastBidPrice (mkts : List ExchangeAgent) (j : ℕ) : Option ℚ :=
  (mkts[j]?).bind (fun ex => (olLast ex.bids).map (fun o => o.price))

/-- One step of the minimising venue-selection loop: move from candidate
`c` to index `i` only when `f i` is defined (venue `i` has a last order),
`f c` is defined (the candidate side is non-empty), and `f i` is strictly
smaller. -/
def selMinStep (f : ℕ → Option ℚ) (c i : ℕ) : ℕ :=
  match f i, f c with
  | some pi, some pc => if pi < pc then i else c
  | _, _ => c

/-- One step of the maximising venue-selection loop, mirror image of
`selMinStep`. -/
def selMaxStep (f : ℕ → Option ℚ) (c i : ℕ) : ℕ :=
  match f i, f c with
  | some pi, some pc => if pc < pi then i else c
  | _, _ => c

/-- Venue-selection loop of `Trader._buy_market` (lines 215-219): starting
from candidate 0, move to venue `i` only when venue `i` has a last ask,
the current candidate's ask side is non-empty, and `i`'s last ask price is
strictly lower. -/
def buyMarketSelect (mkts : List ExchangeAgent) : ℕ :=
  (List.range mkts.length).foldl (selMinStep (lastAskPrice mkts)) 0

/-- Venue-selection loop of `Trader._sell_market` (lines 235-239): move to
venue `i` only when it has a last bid, the candidate's bid side is
non-empty, and `i`'s last bid price is strictly higher. -/
def sellMarketSelect (mkts : List ExchangeAgent) : ℕ :=
  (List.range mkts.length).foldl (selMaxStep (lastBidPrice mkts)) 0

/-- The minimising step ignores an index with no defined price. -/
theorem selMinStep_none (f : ℕ → Option ℚ) (c i : ℕ) (h : f i = none) :
    selMinStep f c i = c := by
  unfold selMinStep
  rw [h]

/-- The minimising step compares defined prices. -/
theorem selMinStep_some (f : ℕ → Option ℚ) (c i : ℕ) (pi pc : ℚ)
    (hi : f i = some pi) (hc : f c = some pc) :
    selMinStep f c i = if pi < pc then i else c := by
  unfold selMinStep
  rw [hi, hc]

/-- The maximising step ignores an index with no defined price. -/
theorem selMaxStep_none (f : ℕ → Option ℚ) (c i : ℕ) (h : f i = none) :
    selMaxStep f c i = c := by
  unfold selMaxStep
  rw [h]

/-- The maximising step compares defined prices. -/
theorem selMaxStep_some (f : ℕ → Option ℚ) (c i : ℕ) (pi pc : ℚ)
    (hi : f i = some pi) (hc : f c = some pc) :
    selMaxStep f c i = if pc < pi then i else c := by
  unfold selMaxStep
  rw [hi, hc]

/-- `Trader._buy_market` (lines 206-224): when no venue has a non-empty ask
side, return the quantity untouched; otherwise run the selection loop
(overridden by an explicitly supplied venue index), then build a market bid
at the chosen venue's last ask price - an `IndexError` when the index is
out of range, an `AttributeError` (`None.price`) when that venue's ask side
is empty - dispatch it through `market_order`, and return the unfulfilled
remainder. -/
def Trader.buy_market (mkts : List ExchangeAgent) (tr : Trader) (quantity : ℤ)
    (market : Option ℕ) : Except String (List ExchangeAgent × ℤ) :=
  if mkts.all (fun m => m.asks.isEmpty) then .ok (mkts, quantity)
  else
    let mn := match market with
      | some i => i
      | none => buyMarketSelect mkts
    match mkts[mn]? with
    | none => .error "IndexError"
    | some exm =>
      match olLast exm.asks with
      | none => .error "AttributeError"
      | some lo =>
        let res := exm.market_order ⟨lo.price, quantity, .bid, mn, some tr.tid⟩
        .ok (mkts.set mn res.1, res.2.qty)

/-- `Trader._sell_market` (lines 226-244): symmetric to `_buy_market`,
selecting the venue with the highest last bid and issuing a market ask
at its last bid price. -/
def Trader.sell_market (mkts : List ExchangeAgent) (tr : Trader) (quantity : ℤ)
    (market : Option ℕ) : Except String (List ExchangeAgent × ℤ) :=
  if mkts.all (fun m => m.bids.isEmpty) then .ok (mkts, quantity)
  else
    let mx := match market with
      | some i => i
      | none => sellMarketSelect mkts
    match mkts[mx]? with
    | none => .error "IndexError"
    | some exm =>
      match olLast exm.bids with
      | none => .error "AttributeError"
      | some lo =>
        let res := exm.market_order ⟨lo.price, quantity, .ask, mx, some tr.tid⟩
        .ok (mkts.set mx res.1, res.2.qty)

/-- Invariant of the minimising selection fold: starting from a candidate
with a defined price, the fold returns a candidate with a defined price
that is a lower bound of every defined price in the scanned index list. -/
theorem selectFoldMin_spec (f : ℕ → Option ℚ) (l : List ℕ) (mn : ℕ) (pm : ℚ)
    (hm : f mn = some pm) :
    ∃ p, f (l.foldl (selMinStep f) mn) = some p ∧ p ≤ pm ∧
      ∀ j ∈ l, ∀ q, f j = some q → p ≤ q := by
  induction l generalizing mn pm with
  | nil => exact ⟨pm, hm, le_refl _, by simp⟩
  | cons x xs ih =>
    simp only [List.foldl_cons]
    cases hx : f x with
    | none =>
      rw [selMinStep_none f mn x hx]
      obtain ⟨p, hp, hle, hall⟩ := ih mn pm hm
      refine ⟨p, hp, hle, ?_⟩
      intro j hj q hq
      rcases List.mem_cons.mp hj with rfl | hj
      · rw [hx] at hq; cases hq
      · exact hall j hj q hq
    | some px =>
      rw [selMinStep_some f mn x px pm hx hm]
      by_cases hlt : px < pm
      · rw [if_pos hlt]
        obtain ⟨p, hp, hle, hall⟩ := ih x px hx
        refine ⟨p, hp, le_of_lt (lt_of_le_of_lt hle hlt), ?_⟩
        intro j hj q hq
        rcases List.mem_cons.mp hj with rfl | hj
        · rw [hx] at hq; injection hq with hq; rw [← hq]; exact hle
        · exact hall j hj q hq
      · rw [if_neg hlt]
        obtain ⟨p, hp, hle, hall⟩ := ih mn pm hm
        refine ⟨p, hp, hle, ?_⟩
        intro j hj q hq
        rcases List.mem_cons.mp hj with rfl | hj
        · rw [hx] at hq; injection hq with hq; rw [← hq]
          exact le_trans hle (not_lt.mp hlt)
        · exact hall j hj q hq

/-- Invariant of the maximising selection fold, mirror image of
`selectFoldMin_spec`. -/
theorem selectFoldMax_spec (f : ℕ → Option ℚ) (l : List ℕ) (mx : ℕ) (pm : ℚ)
    (hm : f mx = some pm) :
    ∃ p, f (l.foldl (selMaxStep f) mx) = some p ∧ pm ≤ p ∧
      ∀ j ∈ l, ∀ q, f j = some q → q ≤ p := by
  induction l generalizing mx pm with
  | nil => exact ⟨pm, hm, le_refl _, by simp⟩
  | cons x xs ih =>
    simp only [List.foldl_cons]
    cases hx : f x with
    | none =>
      rw [selMaxStep_none f mx x hx]
      obtain ⟨p, hp, hle, hall⟩ := ih mx pm hm
      refine ⟨p, hp, hle, ?_⟩
      intro j hj q hq
      rcases List.mem_cons.mp hj with rfl | hj
      · rw [hx] at hq; cases hq
      · exact hall j hj q hq
    | some px =>
      rw [selMaxStep_some f mx x px pm hx hm]
      by_cases hlt : pm < px
      · rw [if_pos hlt]
        obtain ⟨p, hp, hle, hall⟩ := ih x px hx
        refine ⟨p, hp, le_of_lt (lt_of_lt_of_le hlt hle), ?_⟩
        intro j hj q hq
        rcases List.mem_cons.mp hj with rfl | hj
        · rw [hx] at hq; injection hq with hq; rw [← hq]; exact hle
        · exact hall j hj q hq
      · rw [if_neg hlt]
        obtain ⟨p, hp, hle, hall⟩ := ih mx pm hm
        refine ⟨p, hp, hle, ?_⟩
        intro j hj q hq
        rcases List.mem_cons.mp hj with rfl | hj
        · rw [hx] at hq; injection hq with hq; rw [← hq]
          exact le_trans (not_lt.mp hlt) hle
        · exact hall j hj q hq

/-- An index whose last ask price is defined and minimal among all venues
with a defined last ask. -/
def isMinLastAsk (mkts : List ExchangeAgent) (sel : ℕ) : Prop :=
  ∃ p, lastAskPrice mkts sel = some p ∧
    ∀ j ∈ List.range mkts.length, ∀ q, lastAskPrice mkts j = some q → p ≤ q

/-- An index whose last bid price is defined and maximal among all venues
with a defined last bid. -/
def isMaxLastBid (mkts : List ExchangeAgent) (sel : ℕ) : Prop :=
  ∃ p, lastBidPrice mkts sel = some p ∧
    ∀ j ∈ List.range mkts.length, ∀ q, lastBidPrice mkts j = some q → q ≤ p

/-- A venue with a defined last ask price witnesses that not every ask side
is empty. -/
theorem not_all_asks_empty (mkts : List ExchangeAgent) (j : ℕ) (p : ℚ)
    (h : lastAskPrice mkts j = some p) :
    mkts.all (fun m => m.asks.isEmpty) = false := by
  unfold lastAskPrice at h
  cases hj : mkts[j]? with
  | none => rw [hj] at h; cases h
  | some ex =>
    rw [hj] at h
    simp only [Option.some_bind] at h
    cases hl : olLast ex.asks with
    | none => rw [hl] at h; cases h
    | some o =>
      have hmem : ex ∈ mkts := by
        obtain ⟨hlt, hget⟩ := List.getElem?_eq_some_iff.mp hj
        rw [← hget]; exact List.getElem_mem hlt
      have hne : ex.asks ≠ [] := by
        intro hnil
        rw [olLast, hnil] at hl
        cases hl
      rw [List.all_eq_false]
      exact ⟨ex, hmem, by simpa [List.isEmpty_iff] using hne⟩

/-- A venue with a defined last bid price witnesses that not every bid side
is empty. -/
theorem not_all_bids_empty (mkts : List ExchangeAgent) (j : ℕ) (p : ℚ)
    (h : lastBidPrice mkts j = some p) :
    mkts.all (fun m => m.bids.isEmpty) = false := by
  unfold lastBidPrice at h
  cases hj : mkts[j]? with
  | none => rw [hj] at h; cases h
  | some ex =>
    rw [hj] at h
    simp only [Option.some_bind] at h
    cases hl : olLast ex.bids with
    | none => rw [hl] at h; cases h
    | some o =>
      have hmem : ex ∈ mkts := by
        obtain ⟨hlt, hget⟩ := List.getElem?_eq_some_iff.mp hj
        rw [← hget]; exact List.getElem_mem hlt
      have hne : ex.bids ≠ [] := by
        intro hnil
        rw [olLast, hnil] at hl
        cases hl
      rw [List.all_eq_false]
      exact ⟨ex, hmem, by simpa [List.isEmpty_iff] using hne⟩

/-- C5 amended: `_buy_market(q)` returns `q` when no venue has a non-empty
ask side.  When venue 0's ask side is non-empty, the selection loop picks a
venue whose last ask price is minimal among all venues with a defined last
ask, and the call issues a market bid of quantity `q` at that venue's last
ask price through `market_order`, returning the unfulfilled remainder; a
supplied venue index overrides the selection.  (When venue 0's ask side is
empty while another venue has asks, the candidate never moves off venue 0
and the call fails - see the counterexample.)  `_sell_market` is symmetric
with the highest last bid. -/
theorem claim_C5_market_routing
    (tr : Trader) (q : ℤ)
    (mktsE mktsF : List ExchangeAgent)
    (hE : ∀ ex ∈ mktsE, ex.asks = []) (hF : ∀ ex ∈ mktsF, ex.bids = [])
    (mkts : List ExchangeAgent) (p0 : ℚ) (h0 : lastAskPrice mkts 0 = some p0)
    (exsel : ExchangeAgent) (osel : Order)
    (hsel : mkts[buyMarketSelect mkts]? = some exsel)
    (hlsel : olLast exsel.asks = some osel)
    (i : ℕ) (exi : ExchangeAgent) (oi : Order)
    (hi : mkts[i]? = some exi) (hli : olLast exi.asks = some oi)
    (mkts2 : List ExchangeAgent) (r0 : ℚ) (g0 : lastBidPrice mkts2 0 = some r0)
    (exsel2 : ExchangeAgent) (osel2 : Order)
    (hsel2 : mkts2[sellMarketSelect mkts2]? = some exsel2)
    (hlsel2 : olLast exsel2.bids = some osel2) :
    Trader.buy_market mktsE tr q none = .ok (mktsE, q) ∧
    Trader.sell_market mktsF tr q none = .ok (mktsF, q) ∧
    isMinLastAsk mkts (buyMarketSelect mkts) ∧
    Trader.buy_market mkts tr q none =
      .ok (mkts.set (buyMarketSelect mkts)
            (exsel.market_order ⟨osel.price, q, .bid, buyMarketSelect mkts, some tr.tid⟩).1,
          (exsel.market_order ⟨osel.price, q, .bid, buyMarketSelect mkts, some tr.tid⟩).2.qty) ∧
    Trader.buy_market mkts tr q (some i) =
      .ok (mkts.set i (exi.market_order ⟨oi.price, q, .bid, i, some tr.tid⟩).1,
          (exi.market_order ⟨oi.price, q, .bid, i, some tr.tid⟩).2.qty) ∧
    isMaxLastBid mkts2 (sellMarketSelect mkts2) ∧
    Trader.sell_market mkts2 tr q none =
      .ok (mkts2.set (sellMarketSelect mkts2)
            (exsel2.market_order ⟨osel2.price, q, .ask, sellMarketSelect mkts2, some tr.tid⟩).1,
          (exsel2.market_order ⟨osel2.price, q, .ask, sellMarketSelect mkts2, some tr.tid⟩).2.qty) := by
  have hallE : mktsE.all (fun m => m.asks.isEmpty) = true := by
    rw [List.all_eq_true]
    intro ex hex
    rw [hE ex hex]
    rfl
  have hallF : mktsF.all (fun m => m.bids.isEmpty) = true := by
    rw [List.all_eq_true]
    intro ex hex
    rw [hF ex hex]
    rfl
  have hne : mkts.all (fun m => m.asks.isEmpty) = false := not_all_asks_empty mkts 0 p0 h0
  have hne2 : mkts2.all (fun m => m.bids.isEmpty) = false := not_all_bids_empty mkts2 0 r0 g0
  refine ⟨?_, ?_, ?_, ?_, ?_, ?_, ?_⟩
  · rw [Trader.buy_market, hallE]
    rfl
  · rw [Trader.sell_market, hallF]
    rfl
  · obtain ⟨p, hp, _, hall⟩ :=
      selectFoldMin_spec (lastAskPrice mkts) (List.range mkts.length) 0 p0 h0
    exact ⟨p, hp, hall⟩
  · rw [Trader.buy_market, hne]
    simp only [Bool.false_eq_true, if_false]
    simp only [hsel, hlsel]
  · rw [Trader.buy_market, hne]
    simp only [Bool.false_eq_true, if_false]
    simp only [hi, hli]
  · obtain ⟨p, hp, _, hall⟩ :=
      selectFoldMax_spec (lastBidPrice mkts2) (List.range mkts2.length) 0 r0 g0
    exact ⟨p, hp, hall⟩
  · rw [Trader.sell_market, hne2]
    simp only [Bool.false_eq_true, if_false]
    simp only [hsel2, hlsel2]

/-- An exchange with a resting bid but an empty ask side. -/
def exNoAsk : ExchangeAgent := ⟨[oB], [], [1/20], 1/2000, 0⟩

/-- A concrete trader used in witnesses. -/
def trW : Trader := ⟨7, 1000, [0, 0], []⟩

/-- A second concrete exchange: best/last bid 120, best/last ask 50. -/
def exC : ExchangeAgent :=
  ⟨[⟨120, 1, .bid, 0, none⟩], [⟨50, 1, .ask, 0, none⟩], [1/20], 1/2000, 0⟩

/-- C5 is refuted when venue 0 has an empty ask side while venue 1 has a
resting ask: the guard of the selection loop requires the current
candidate's ask side to be non-empty, so the candidate never moves off
venue 0, and the order construction dereferences `None.price` instead of
selecting venue 1 as the claim states. -/
theorem claim_C5_counterexample :
    Trader.buy_market [exNoAsk, exW] trW 3 none = .error "AttributeError" ∧
    lastAskPrice [exNoAsk, exW] 1 = some 101 := by
  constructor
  · simp [Trader.buy_market, buyMarketSelect, selMinStep, lastAskPrice, exNoAsk, exW, oA, oB,
      olLast, show List.range 2 = [0, 1] from rfl]
  · simp [lastAskPrice, exW, oA, olLast]

/-- Witness for C5's amended theorem on concrete venues: with venue 0's
last ask 101 and venue 1's last ask 50, `_buy_market` routes to venue 1 and
returns remainder 1 of quantity 2; the supplied index 0 overrides the
selection; `_sell_market` routes to the highest last bid 120; and the
no-asks/no-bids cases return the quantity unchanged. -/
theorem claim_C5_witness :
    Trader.buy_market [exNoAsk] trW 2 none = .ok ([exNoAsk], 2) ∧
    Trader.sell_market [exEmptyBid] trW 2 none = .ok ([exEmptyBid], 2) ∧
    Trader.buy_market [exW, exC] trW 2 none =
      .ok ([exW, ⟨[⟨120, 1, .bid, 0, none⟩], [], [1/20], 1/2000, 0⟩], 1) ∧
    Trader.buy_market [exW, exC] trW 2 (some 0) =
      .ok ([⟨[oB], [⟨101, 1, .ask, 0, none⟩], [1/20], 1/2000, 0⟩, exC], 0) ∧
    Trader.sell_market [exW, exC] trW 2 none =
      .ok ([exW, ⟨[], [⟨50, 1, .ask, 0, none⟩], [1/20], 1/2000, 0⟩], 1) := by
  have hbsel : buyMarketSelect [exW, exC] = 1 := by
    norm_num [buyMarketSelect, selMinStep, lastAskPrice, exW, exC, oA, olLast,
      show List.range 2 = [0, 1] from rfl]
  have hssel : sellMarketSelect [exW, exC] = 1 := by
    norm_num [sellMarketSelect, selMaxStep, lastBidPrice, exW, exC, oB, olLast,
      show List.range 2 = [0, 1] from rfl]
  have h := claim_C5_market_routing trW 2 [exNoAsk] [exEmptyBid]
      (by simp [exNoAsk]) (by simp [exEmptyBid])
      [exW, exC] 101 (by simp [lastAskPrice, exW, oA, olLast])
      exC ⟨50, 1, .ask, 0, none⟩ (by rw [hbsel]; rfl) (by simp [exC, olLast])
      0 exW oA (by rfl) (by simp [exW, oA, olLast])
      [exW, exC] 99 (by simp [lastBidPrice, exW, oB, olLast])
      exC ⟨120, 1, .bid, 0, none⟩ (by rw [hssel]; rfl) (by simp [exC, olLast])
  refine ⟨h.1, h.2.1, ?_, ?_, ?_⟩
  · rw [h.2.2.2.1, hbsel]
    norm_num [exC, ExchangeAgent.market_order, fulfill, priceCompatible, trW]
  · rw [h.2.2.2.2.1]
    norm_num [exW, oA, oB, ExchangeAgent.market_order, fulfill, priceCompatible, trW]
  · rw [h.2.2.2.2.2.2, hssel]
    norm_num [exC, ExchangeAgent.market_order, fulfill, priceCompatible, trW]

/-- `Trader._buy_limit` (lines 196-199): build a bid order with the price
rounded to one decimal (quantity is an int, on which Python's `round` is
the identity), append it to the trader's resting list, and dispatch it to
the venue's `limit_order`.  The constructed order is returned alongside the
updated state. -/
def Trader.buy_limit (mkts : List ExchangeAgent) (tr : Trader) (quantity : ℤ)
    (p : ℚ) (market_id : ℕ) :
    Except String (List ExchangeAgent × Trader × Order) :=
  let o : Order := ⟨pyRound1 p, quantity, .bid, market_id, some tr.tid⟩
  match mkts[market_id]? with
  | none => .error "IndexError"
  | some ex =>
    match ex.limit_order o with
    | .error e => .error e
    | .ok ex2 => .ok (mkts.set market_id ex2, { tr with orders := tr.orders ++ [o] }, o)

/-- `Trader._sell_limit` (lines 201-204): symmetric to `_buy_limit`. -/
def Trader.sell_limit (mkts : List ExchangeAgent) (tr : Trader) (quantity : ℤ)
    (p : ℚ) (market_id : ℕ) :
    Except String (List ExchangeAgent × Trader × Order) :=
  let o : Order := ⟨pyRound1 p, quantity, .ask, market_id, some tr.tid⟩
  match mkts[market_id]? with
  | none => .error "IndexError"
  | some ex =>
    match ex.limit_order o with
    | .error e => .error e
    | .ok ex2 => .ok (mkts.set market_id ex2, { tr with orders := tr.orders ++ [o] }, o)

/-- `Trader._cancel_order` (lines 246-248): remove the order from its venue
and from the trader's resting list.  Python's `list.remove` raises when the
element is absent; at every modelled call site the order is an element of
the list, and the embedding removes the first occurrence. -/
def Trader.cancel_order (mkts : List ExchangeAgent) (tr : Trader) (o : Order) :
    Except String (List ExchangeAgent × Trader) :=
  match mkts[o.market_id]? with
  | none => .error "IndexError"
  | some ex =>
    .ok (mkts.set o.market_id (ex.cancel_order o), { tr with orders := tr.orders.erase o })

/-- `MarketMaker` state (lines 604-619): the common trader state plus the
upper and lower soft limits and the panic flag (`prev_cash` is bookkeeping
no claim reads and is omitted). -/
structure MarketMaker where
  tr : Trader
  uls : List ℤ
  lls : List ℤ
  panic : Bool
deriving DecidableEq

/-- Cancellation phase of `MarketMaker.call` (lines 622-623): cancel each
order of a snapshot of the resting list, threading the venue and trader
state. -/
def cancelAll (mkts : List ExchangeAgent) (tr : Trader) :
    Except String (List ExchangeAgent × Trader) :=
  tr.orders.foldlM (fun st o => Trader.cancel_order st.1 st.2 o) (mkts, tr)

/-- Quoting phase of `MarketMaker.call` (lines 624-633) for one venue:
read the spread (the exception propagates), compute the inventory offset
`min(1, (ask-bid)*(assets[i]/lls[i]))` and the two volumes with Python's
floor division, set the panic flag, and dispatch the two limit orders,
recording the constructed orders.  Python's division by a zero `lls[i]`
would raise; the embedding uses total division (no modelled call has a zero
soft limit). -/
def mmQuoteVenue (st : List ExchangeAgent × MarketMaker × List Order) (i : ℕ) :
    Except String (List ExchangeAgent × MarketMaker × List Order) :=
  match st.1[i]? with
  | none => .error "IndexError"
  | some ex =>
    match ex.spread with
    | .error e => .error e
    | .ok s =>
      match st.2.1.tr.assets[i]?, st.2.1.uls[i]?, st.2.1.lls[i]? with
      | some ai, some uli, some lli =>
        let base_offset := min 1 ((s.ask - s.bid) * ((ai : ℚ) / (lli : ℚ)))
        let bid_volume := max 0 (Int.fdiv (uli - 1 - ai) 2)
        let ask_volume := max 0 (Int.fdiv (ai - 1 - lli) 2)
        let bid_price := s.bid + base_offset
        let ask_price := s.ask - base_offset
        match Trader.buy_limit st.1 st.2.1.tr bid_volume bid_price i with
        | .error e => .error e
        | .ok bres =>
          match Trader.sell_limit bres.1 bres.2.1 ask_volume ask_price i with
          | .error e => .error e
          | .ok sres =>
            .ok (sres.1, { st.2.1 with tr := sres.2.1, panic := true },
              st.2.2 ++ [bres.2.2, sres.2.2])
      | _, _, _ => .error "IndexError"

/-- `MarketMaker.call` (lines 621-635): cancel all resting orders over a
snapshot of the list, then quote both sides of every venue in index order.
The returned order list records the orders constructed by the limit
placements. -/
def MarketMaker.call (mkts : List ExchangeAgent) (mm : MarketMaker) :
    Except String (List ExchangeAgent × MarketMaker × List Order) :=
  match cancelAll mkts mm.tr with
  | .error e => .error e
  | .ok (mkts1, tr1) =>
    (List.range mkts1.length).foldlM mmQuoteVenue (mkts1, { mm with tr := tr1 }, [])

/-- The two quotes claim C6 prescribes for venue `i`, written from the
claim's own formulas over the post-cancellation books: a buy limit at
`bid + offset` and a sell limit at `ask - offset`, with
`offset = min(1, (ask-bid)*(assets_i/lower_i))`,
`bid_volume = max(0, (upper_i - 1 - assets_i) // 2)` and
`ask_volume = max(0, (assets_i - 1 - lower_i) // 2)` (order prices are
rounded to one decimal by the order constructor). -/
def mmClaimOrders (mkts : List ExchangeAgent) (mm : MarketMaker) (i : ℕ) :
    Option (Order × Order) :=
  match mkts[i]? with
  | none => none
  | some ex =>
    match ex.spread with
    | .error _ => none
    | .ok s =>
      match mm.tr.assets[i]?, mm.uls[i]?, mm.lls[i]? with
      | some ai, some uli, some lli =>
        let offset := min 1 ((s.ask - s.bid) * ((ai : ℚ) / (lli : ℚ)))
        some (⟨pyRound1 (s.bid + offset), max 0 (Int.fdiv (uli - 1 - ai) 2), .bid, i, some mm.tr.tid⟩,
              ⟨pyRound1 (s.ask - offset), max 0 (Int.fdiv (ai - 1 - lli) 2), .ask, i, some mm.tr.tid⟩)
      | _, _, _ => none

/-- Collect the C6 claim quotes for a list of venue indices, failing if any
venue misses a spread or a soft-limit entry. -/
def claimOrdersList (mkts : List ExchangeAgent) (mm : MarketMaker) : List ℕ → Option (List (Order × Order))
  | [] => some []
  | i :: is =>
    match mmClaimOrders mkts mm i, claimOrdersList mkts mm is with
    | some pr, some prs => some (pr :: prs)
    | _, _ => none

/-- The full list of quotes claim C6 prescribes across all venues. -/
def mmClaimTrace (mkts : List ExchangeAgent) (mm : MarketMaker) : Option (List Order) :=
  (claimOrdersList mkts mm (List.range mkts.length)).map
    (fun prs => (prs.map (fun pr => [pr.1, pr.2])).flatten)

/-- Binding an error in `Except` yields that error. -/
theorem except_error_bind {α β : Type} (e : String) (f : α → Except String β) :
    (Except.error e : Except String α) >>= f = .error e := rfl

/-- Binding an ok value applies the continuation. -/
theorem except_ok_bind {α β : Type} (a : α) (f : α → Except String β) :
    (Except.ok a : Except String α) >>= f = f a := rfl

/-- Erasing every element of a list from the list itself leaves the empty
list. -/
theorem foldl_erase_self (l : List Order) :
    List.foldl (fun acc o => acc.erase o) l l = [] := by
  induction l with
  | nil => rfl
  | cons a as ih => rw [List.foldl_cons, List.erase_cons_head]; exact ih

/-- The cancellation fold: on success the resulting resting list is the
fold of `erase` over the snapshot; the trader's assets and id and the
number of venues are untouched. -/
theorem cancelAll_fold (l : List Order) :
    ∀ (mkts : List ExchangeAgent) (tr : Trader) (res : List ExchangeAgent × Trader),
    l.foldlM (fun st o => Trader.cancel_order st.1 st.2 o) (mkts, tr) = .ok res →
    res.2.orders = l.foldl (fun acc o => acc.erase o) tr.orders ∧
    res.2.assets = tr.assets ∧ res.2.tid = tr.tid ∧ res.1.length = mkts.length := by
  induction l with
  | nil =>
    intro mkts tr res h
    simp only [List.foldlM_nil] at h
    cases h
    exact ⟨rfl, rfl, rfl, rfl⟩
  | cons o os ih =>
    intro mkts tr res h
    rw [List.foldlM_cons] at h
    cases hs : Trader.cancel_order mkts tr o with
    | error e => rw [hs, except_error_bind] at h; exact Except.noConfusion h
    | ok st2 =>
      rw [hs, except_ok_bind] at h
      simp only [Trader.cancel_order] at hs
      cases hm : mkts[o.market_id]? with
      | none => rw [hm] at hs; exact Except.noConfusion hs
      | some ex =>
        rw [hm] at hs
        injection hs with hs
        obtain ⟨h1, h2, h3, h4⟩ := ih st2.1 st2.2 res h
        rw [← hs] at h1 h2 h3 h4
        refine ⟨?_, h2, h3, by rw [h4]; exact List.length_set mkts o.market_id _⟩
        rw [h1, List.foldl_cons]

/-- On success, `cancelAll` leaves the trader with no resting orders and
unchanged assets and id, and preserves the number of venues. -/
theorem cancelAll_spec (mkts : List ExchangeAgent) (tr : Trader)
    (mkts1 : List ExchangeAgent) (tr1 : Trader)
    (h : cancelAll mkts tr = .ok (mkts1, tr1)) :
    tr1.orders = [] ∧ tr1.assets = tr.assets ∧ tr1.tid = tr.tid ∧
    mkts1.length = mkts.length := by
  obtain ⟨h1, h2, h3, h4⟩ := cancelAll_fold tr.orders mkts tr (mkts1, tr1) h
  exact ⟨by rw [h1, foldl_erase_self], h2, h3, h4⟩

/-- The quoting fold of `MarketMaker.call`: walking venues not yet visited
whose books agree with the post-cancellation state, every successful run
quotes exactly the C6 claim orders venue by venue, accumulates them in the
trace, and ends with the panic flag set. -/
theorem mmQuote_fold (mkts1 : List ExchangeAgent) (mm1 : MarketMaker) :
    ∀ (l : List ℕ) (stM : List ExchangeAgent) (stmm : MarketMaker) (tra : List Order)
      (res : List ExchangeAgent × MarketMaker × List Order),
    l.Nodup →
    (∀ j ∈ l, stM[j]? = mkts1[j]?) →
    stmm.tr.assets = mm1.tr.assets → stmm.tr.tid = mm1.tr.tid →
    stmm.uls = mm1.uls → stmm.lls = mm1.lls →
    l.foldlM mmQuoteVenue (stM, stmm, tra) = .ok res →
    ∃ prs, claimOrdersList mkts1 mm1 l = some prs ∧
      res.2.2 = tra ++ (prs.map (fun pr => [pr.1, pr.2])).flatten ∧
      (l = [] → res.2.1 = stmm) ∧ (l ≠ [] → res.2.1.panic = true) := by
  intro l
  induction l with
  | nil =>
    intro stM stmm tra res _ _ _ _ _ _ h
    simp only [List.foldlM_nil] at h
    cases h
    exact ⟨[], rfl, by simp, fun _ => rfl, fun hne => absurd rfl hne⟩
  | cons i l2 ih =>
    intro stM stmm tra res hnodup hagree hassets htid huls hlls h
    rw [List.foldlM_cons] at h
    cases hs : mmQuoteVenue (stM, stmm, tra) i with
    | error e => rw [hs, except_error_bind] at h; exact Except.noConfusion h
    | ok st1 =>
    rw [hs, except_ok_bind] at h
    have hIi : stM[i]? = mkts1[i]? := hagree i (List.mem_cons_self i l2)
    simp only [mmQuoteVenue] at hs
    rw [hIi] at hs
    cases hmi : mkts1[i]? with
    | none => rw [hmi] at hs; exact Except.noConfusion hs
    | some exi =>
    simp only [hmi] at hs
    cases hsp : exi.spread with
    | error e => rw [hsp] at hs; exact Except.noConfusion hs
    | ok s =>
    simp only [hsp] at hs
    cases hai : stmm.tr.assets[i]? with
    | none => rw [hai] at hs; exact Except.noConfusion hs
    | some ai =>
    simp only [hai] at hs
    cases hui : stmm.uls[i]? with
    | none => rw [hui] at hs; exact Except.noConfusion hs
    | some uli =>
    simp only [hui] at hs
    cases hli : stmm.lls[i]? with
    | none => rw [hli] at hs; exact Except.noConfusion hs
    | some lli =>
    simp only [hli] at hs
    have hai2 : mm1.tr.assets[i]? = some ai := by rw [← hassets]; exact hai
    have hui2 : mm1.uls[i]? = some uli := by rw [← huls]; exact hui
    have hli2 : mm1.lls[i]? = some lli := by rw [← hlls]; exact hli
    set BO := min 1 ((s.ask - s.bid) * ((ai : ℚ) / (lli : ℚ))) with hBO
    set BV := max 0 (Int.fdiv (uli - 1 - ai) 2) with hBV
    set AV := max 0 (Int.fdiv (ai - 1 - lli) 2) with hAV
    cases hbl : Trader.buy_limit stM stmm.tr BV (s.bid + BO) i with
    | error e => rw [hbl] at hs; exact Except.noConfusion hs
    | ok bres =>
    simp only [hbl] at hs
    cases hsl : Trader.sell_limit bres.1 bres.2.1 AV (s.ask - BO) i with
    | error e => rw [hsl] at hs; exact Except.noConfusion hs
    | ok sres =>
    simp only [hsl] at hs
    injection hs with hs
    have hilen : i < stM.length := by
      have := List.getElem?_eq_some_iff.mp (hIi.trans hmi)
      exact this.1
    simp only [Trader.buy_limit] at hbl
    rw [hIi] at hbl
    simp only [hmi] at hbl
    cases hlo : exi.limit_order ⟨pyRound1 (s.bid + BO), BV, Side.bid, i, some stmm.tr.tid⟩ with
    | error e => rw [hlo] at hbl; exact Except.noConfusion hbl
    | ok exb =>
    simp only [hlo] at hbl
    injection hbl with hbl
    have hb1 : bres.1 = stM.set i exb := by rw [← hbl]
    have hbtid : bres.2.1.tid = stmm.tr.tid := by rw [← hbl]
    have hbord : bres.2.2 = ⟨pyRound1 (s.bid + BO), BV, Side.bid, i, some stmm.tr.tid⟩ := by
      rw [← hbl]
    simp only [Trader.sell_limit] at hsl
    rw [hb1] at hsl
    have hset : (stM.set i exb)[i]? = some exb := by
      simp [List.getElem?_set_self, hilen]
    simp only [hset] at hsl
    rw [hbtid] at hsl
    cases hlo2 : exb.limit_order ⟨pyRound1 (s.ask - BO), AV, Side.ask, i, some stmm.tr.tid⟩ with
    | error e => rw [hlo2] at hsl; exact Except.noConfusion hsl
    | ok exa =>
    simp only [hlo2] at hsl
    injection hsl with hsl
    have hs1 : sres.1 = (stM.set i exb).set i exa := by rw [← hsl]
    have hsord : sres.2.2 = ⟨pyRound1 (s.ask - BO), AV, Side.ask, i, some stmm.tr.tid⟩ := by
      rw [← hsl]
    have hsassets : sres.2.1.assets = stmm.tr.assets := by
      rw [← hsl]
      simp only [← hbl]
    have hstid : sres.2.1.tid = stmm.tr.tid := by
      rw [← hsl]
    have hnotmem : i ∉ l2 := (List.nodup_cons.mp hnodup).1
    rw [← hs] at h
    obtain ⟨prs2, hmap2, htr2, hnil2, hpan2⟩ :=
      ih sres.1 { stmm with tr := sres.2.1, panic := true } (tra ++ [bres.2.2, sres.2.2]) res
        (List.nodup_cons.mp hnodup).2
        (fun j hj => by
          have hji : j ≠ i := fun hrf => hnotmem (hrf ▸ hj)
          rw [hs1, List.getElem?_set_ne hji.symm, List.getElem?_set_ne hji.symm]
          exact hagree j (List.mem_cons_of_mem i hj))
        (by simpa [hsassets] using hassets)
        (by simpa [hstid] using htid)
        huls hlls h
    have hclaim : mmClaimOrders mkts1 mm1 i = some (bres.2.2, sres.2.2) := by
      simp only [mmClaimOrders, hmi, hsp, hai2, hui2, hli2, hbord, hsord, htid, ← hBO, ← hBV, ← hAV]
    refine ⟨(bres.2.2, sres.2.2) :: prs2, ?_, ?_, ?_, ?_⟩
    · simp only [claimOrdersList, hclaim, hmap2]
    · rw [htr2]
      simp [List.append_assoc]
    · intro hc
      exact absurd hc (List.cons_ne_nil i l2)
    · intro _
      by_cases hl2e : l2 = []
      · rw [hnil2 hl2e]
      · exact hpan2 hl2e

/-- C6: on a successful `MarketMaker.call`, the cancellation phase first
removes every one of the agent's resting orders (iterating a snapshot of
the list), and the quoting phase then emits, for each venue `i` in order,
exactly the claim's two orders - a buy limit at `bid + offset` and a sell
limit at `ask - offset` with `offset = min(1, (ask-bid)*(assets_i/lower_i))`
and volumes `max(0, (upper_i - 1 - assets_i) // 2)` /
`max(0, (assets_i - 1 - lower_i) // 2)` - computed from the
post-cancellation books, and sets `panic = true`. -/
theorem claim_C6_market_maker
    (mkts mkts1 : List ExchangeAgent) (mm : MarketMaker) (tr1 : Trader)
    (res : List ExchangeAgent × MarketMaker × List Order)
    (hcancel : cancelAll mkts mm.tr = .ok (mkts1, tr1))
    (hcall : MarketMaker.call mkts mm = .ok res)
    (hne : mkts1 ≠ []) :
    tr1.orders = [] ∧
    res.2.1.panic = true ∧
    mmClaimTrace mkts1 { mm with tr := tr1 } = some res.2.2 := by
  obtain ⟨ho, _, _, _⟩ := cancelAll_spec mkts mm.tr mkts1 tr1 hcancel
  unfold MarketMaker.call at hcall
  rw [hcancel] at hcall
  obtain ⟨prs, hmap, htr, _, hpanic⟩ :=
    mmQuote_fold mkts1 { mm with tr := tr1 } (List.range mkts1.length)
      mkts1 { mm with tr := tr1 } [] res
      (List.nodup_range mkts1.length)
      (fun j _ => rfl) rfl rfl rfl rfl hcall
  refine ⟨ho, hpanic ?_, ?_⟩
  · have : mkts1.length ≠ 0 := fun hz => hne (List.length_eq_zero.mp hz)
    simp [List.range_eq_nil, this]
  · unfold mmClaimTrace
    rw [hmap]
    simp [htr]

/-- Distinct order sides are not equal. -/
theorem side_ask_eq_bid_false : (Side.ask = Side.bid) = False := by
  simp

/-- A concrete market maker with soft limits 10 and no resting orders. -/
def mmW : MarketMaker := ⟨⟨7, 1000, [0], []⟩, [10], [-10], false⟩

/-- Witness for C6 on the one-venue book with spread 99/101 and inventory
0: offset 0, both volumes 4, a buy limit at 99 and a sell limit at 101,
panic set. -/
theorem claim_C6_witness :
    mmW.tr.orders = [] ∧
    (MarketMaker.call [exW] mmW).isOk = true ∧
    (∀ r, MarketMaker.call [exW] mmW = .ok r →
      (r.2.1.panic = true ∧ mmClaimTrace [exW] mmW = some r.2.2)) := by
  have hcancel : cancelAll [exW] mmW.tr = .ok ([exW], mmW.tr) := rfl
  have hcall : (MarketMaker.call [exW] mmW).isOk = true := by
    norm_num [MarketMaker.call, cancelAll, mmQuoteVenue, Trader.buy_limit, Trader.sell_limit,
      ExchangeAgent.limit_order, ExchangeAgent.spread, fulfill, priceCompatible, olInsert,
      moreAggressive, pyRound1, pyRound, exW, oA, oB, mmW, Except.isOk, Except.toBool,
      pure, Except.pure, List.foldlM_cons, List.foldlM_nil, Bind.bind, Except.bind,
      side_ask_eq_bid_false, show List.range 1 = [0] from rfl, Int.fdiv]
  refine ⟨rfl, hcall, ?_⟩
  intro r hr
  have hmm : { mmW with tr := mmW.tr } = mmW := rfl
  have h := claim_C6_market_maker [exW] [exW] mmW mmW.tr r hcancel hr (by simp)
  rw [hmm] at h
  exact ⟨h.2.1, h.2.2⟩

/-- Chartist or Universalist sentiment: the Python strings `'Optimistic'`
and `'Pessimistic'`. -/
inductive Sentiment where
  | Optimistic
  | Pessimistic
deriving DecidableEq

/-- Trader kind strings compared by the sentiment and strategy logic. -/
inductive TType where
  | Chartist
  | Fundamentalist
  | Other
deriving DecidableEq

/-- The slice of `SimulatorInfo` read by `change_sentiment` and
`change_strategy`: the roster `info.traders` (kind and sentiment of each
trader), the snapshot value lists of `info.types[-1]` and
`info.sentiments[-1]`, the price series `info.prices`, and the values of
`info.returns[-1]`.  `SimulatorInfo` lives in simulator sources outside
`agents.py`; its fields are taken as given data. -/
structure SimInfo where
  traders : List (TType × Sentiment)
  lastTypes : List TType
  lastSentiments : List Sentiment
  prices : List ℚ
  lastReturns : List ℚ
deriving DecidableEq

/-- Modelled from the spec: `mean` of the missing `AgentBasedModel.utils.math`
module: the arithmetic mean (Python's division-by-zero on an empty list is
not modelled; total rational division is used). -/
def mean (l : List ℚ) : ℚ := l.sum / l.length

/-- The price derivative `info.prices[-1] - info.prices[-2]` when at least
two prices exist, `0` otherwise (lines 497 and 568). -/
def dpOf (prices : List ℚ) : ℚ :=
  if 1 < prices.length then
    prices.getD (prices.length - 1) 0 - prices.getD (prices.length - 2) 0
  else 0

/-- The list `[markets[i].price() for i in range(len(markets))]`; the first
price exception propagates. -/
def venuePrices : List ExchangeAgent → Except String (List ℚ)
  | [] => .ok []
  | m :: ms =>
    match m.price with
    | .error e => .error e
    | .ok p =>
      match venuePrices ms with
      | .error e => .error e
      | .ok ps => .ok (p :: ps)

/-- Python `min` on a list of numbers; raises on the empty list. -/
def pyMin : List ℚ → Except String ℚ
  | [] => .error "ValueError"
  | x :: xs => .ok (xs.foldl min x)

/-- Python `max` on a list of numbers; raises on the empty list. -/
def pyMax : List ℚ → Except String ℚ
  | [] => .error "ValueError"
  | x :: xs => .ok (xs.foldl max x)

/-- `len(info.traders)` as a rational (line 492 and 563). -/
def nTraders (info : SimInfo) : ℚ := info.traders.length

/-- The count of `'Chartist'` entries in `info.types[-1]` (line 493). -/
def nChartistsOf (info : SimInfo) : ℚ :=
  info.lastTypes.countP (fun t => decide (t = TType.Chartist))

/-- The count of `'Optimistic'` entries in `info.sentiments[-1]` (line 494). -/
def nOptimisticOf (info : SimInfo) : ℚ :=
  info.lastSentiments.countP (fun t => decide (t = Sentiment.Optimistic))

/-- The count of `'Pessimistic'` entries in `info.sentiments[-1]` (line 495). -/
def nPessimistsOf (info : SimInfo) : ℚ :=
  info.lastSentiments.countP (fun t => decide (t = Sentiment.Pessimistic))

/-- `Chartist.change_sentiment` (lines 483-521): recompute the opinion from
the population counts and the price movement.  The `exp` of the missing
utils.math module is the abstract argument `E`; the uniform draw is `u`;
the comparison `prob > random.random()` is `u < prob`.  Python's
division-by-zero on a zero chartist or trader count is not modelled (total
rational division). -/
def Chartist.change_sentiment (mkts : List ExchangeAgent) (sentiment : Sentiment)
    (info : SimInfo) (a1 a2 v1 : ℚ) (E : ℚ → ℚ) (u : ℚ) : Except String Sentiment :=
  let dp := dpOf info.prices
  match sentiment with
  | .Optimistic =>
    match venuePrices mkts with
    | .error e => .error e
    | .ok plist =>
      match pyMin plist with
      | .error e => .error e
      | .ok p0 =>
        let x := (nOptimisticOf info - nPessimistsOf info) / nChartistsOf info
        let v1g := if v1 = 0 then 1 else v1
        let p := if p0 = 0 then 1 else p0
        let U := a1 * x + a2 / v1g * dp / p
        let prob := v1g * nChartistsOf info / nTraders info * E U
        if u < prob then .ok .Pessimistic else .ok .Optimistic
  | .Pessimistic =>
    match venuePrices mkts with
    | .error e => .error e
    | .ok plist =>
      match pyMax plist with
      | .error e => .error e
      | .ok p0 =>
        let x := (nOptimisticOf info - nPessimistsOf info) / nChartistsOf info
        let v1g := if v1 = 0 then 1 else v1
        let p := if p0 = 0 then 1 else p0
        let U := a1 * x + a2 / v1g * dp / p
        let prob := v1g * nChartistsOf info / nTraders info * E (-U)
        if u < prob then .ok .Optimistic else .ok .Pessimistic

/-- A uniform draw in `[0, 1)` falls below `min 1 prob` exactly when it
falls below `prob`. -/
theorem lt_min_one_iff (u prob : ℚ) (_h0 : 0 ≤ u) (h1 : u < 1) :
    u < min 1 prob ↔ u < prob := by
  constructor
  · intro h
    exact lt_of_lt_of_le h (min_le_right _ _)
  · intro h
    exact lt_min h1 h

/-- C7: with `x = (N+ - N-)/Nc`, the guarded `v1` and `p` (1 substituted
for a zero value), `p` the minimum venue price when Optimistic and the
maximum when Pessimistic, and `U = a1 x + (a2/v1) dp/p`: for a uniform
draw `u` in `[0,1)`, an Optimistic chartist becomes Pessimistic exactly
with probability `min(1, v1 Nc/N exp(U))`, and a Pessimistic chartist
becomes Optimistic exactly with probability `min(1, v1 Nc/N exp(-U))`. -/
theorem claim_C7_change_sentiment
    (mkts : List ExchangeAgent) (info : SimInfo) (a1 a2 v1 : ℚ) (E : ℚ → ℚ)
    (u : ℚ) (plist : List ℚ) (pmin pmax : ℚ)
    (hps : venuePrices mkts = .ok plist)
    (hmin : pyMin plist = .ok pmin) (hmax : pyMax plist = .ok pmax)
    (h0 : 0 ≤ u) (h1 : u < 1) :
    Chartist.change_sentiment mkts .Optimistic info a1 a2 v1 E u =
      .ok (if u < min 1 ((if v1 = 0 then 1 else v1) * nChartistsOf info / nTraders info *
              E (a1 * ((nOptimisticOf info - nPessimistsOf info) / nChartistsOf info)
                 + a2 / (if v1 = 0 then 1 else v1) * dpOf info.prices
                   / (if pmin = 0 then 1 else pmin)))
           then Sentiment.Pessimistic else Sentiment.Optimistic) ∧
    Chartist.change_sentiment mkts .Pessimistic info a1 a2 v1 E u =
      .ok (if u < min 1 ((if v1 = 0 then 1 else v1) * nChartistsOf info / nTraders info *
              E (-(a1 * ((nOptimisticOf info - nPessimistsOf info) / nChartistsOf info)
                   + a2 / (if v1 = 0 then 1 else v1) * dpOf info.prices
                     / (if pmax = 0 then 1 else pmax))))
           then Sentiment.Optimistic else Sentiment.Pessimistic) := by
  constructor
  · simp only [Chartist.change_sentiment, hps, hmin]
    rw [if_congr (Iff.symm (lt_min_one_iff u _ h0 h1)) rfl rfl]
    split_ifs <;> rfl
  · simp only [Chartist.change_sentiment, hps, hmax]
    rw [if_congr (Iff.symm (lt_min_one_iff u _ h0 h1)) rfl rfl]
    split_ifs <;> rfl

/-- A concrete info snapshot: one chartist trader, optimistic, no price
history, last return 0. -/
def infoW : SimInfo :=
  ⟨[(TType.Chartist, Sentiment.Optimistic)], [TType.Chartist], [Sentiment.Optimistic], [], [0]⟩

/-- Witness for C7 at one venue priced 100 with `E = const 1`, `v1 = 1/10`
and draw `0`: both sentiments flip (probability `1/10 > 0`). -/
theorem claim_C7_witness :
    Chartist.change_sentiment [exW] .Optimistic infoW 1 1 (1/10) (fun _ => 1) 0 =
      .ok Sentiment.Pessimistic ∧
    Chartist.change_sentiment [exW] .Pessimistic infoW 1 1 (1/10) (fun _ => 1) 0 =
      .ok Sentiment.Optimistic := by
  have hps : venuePrices [exW] = .ok [100] := by
    norm_num [venuePrices, ExchangeAgent.price, ExchangeAgent.spread, exW, oA, oB,
      pyRound1, pyRound, Except.map]
  have h := claim_C7_change_sentiment [exW] infoW 1 1 (1/10) (fun _ => 1) 0 [100] 100 100
    hps rfl rfl le_rfl (by norm_num)
  constructor
  · rw [h.1]
    norm_num [nChartistsOf, nTraders, nOptimisticOf, nPessimistsOf, dpOf, infoW]
  · rw [h.2]
    norm_num [nChartistsOf, nTraders, nOptimisticOf, nPessimistsOf, dpOf, infoW]

/-- The count of `'Fundamentalist'` traders in the roster (line 564). -/
def nFundamentalistsOf (info : SimInfo) : ℚ :=
  info.traders.countP (fun t => decide (t.1 = TType.Fundamentalist))

/-- The count of optimistic chartists in the roster (line 565). -/
def nOptChartistsOf (info : SimInfo) : ℚ :=
  info.traders.countP (fun t => decide (t.1 = TType.Chartist ∧ t.2 = Sentiment.Optimistic))

/-- The count of pessimistic chartists in the roster (line 566). -/
def nPessChartistsOf (info : SimInfo) : ℚ :=
  info.traders.countP (fun t => decide (t.1 = TType.Chartist ∧ t.2 = Sentiment.Pessimistic))

/-- The clamped utility `U1` of `Universalist.change_strategy` (line 579). -/
def stratU1 (a3 v2 s r dp p R pf : ℚ) : ℚ :=
  max (-100) (min 100 (a3 * ((r + 1 / v2 * dp) / p - R - s * |(pf - p) / p|)))

/-- The clamped utility `U2` of `Universalist.change_strategy` (line 580). -/
def stratU2 (a3 v2 s r dp p R pf : ℚ) : ℚ :=
  max (-100) (min 100 (a3 * (R - (r + 1 / v2 * dp) / p - s * |(pf - p) / p|)))

/-- `Universalist.change_strategy` (lines 550-601).  The state is the pair
(kind, sentiment); `access` selects the dividend window; `E` is the `exp`
of the missing utils.math module; `uSent` is the draw consumed by the
nested `change_sentiment` (only when the kind is Chartist), `u1` and `u2`
the two strategy draws in program order.  `p` reads `markets[0].price()`
(an `IndexError` on an empty venue list, and the price/evaluate exceptions
propagate).  In the Fundamentalist branch both transition checks run in
sequence, the second reading the sentiment possibly just set by the first.
Python's division-by-zero (zero trader count, zero `v2`, zero price) is
not modelled: total rational division is used. -/
def Universalist.change_strategy (mkts : List ExchangeAgent) (u_type : TType)
    (sentiment : Sentiment) (access : ℕ) (info : SimInfo)
    (a1 a2 a3 v1 v2 s : ℚ) (E : ℚ → ℚ) (uSent u1 u2 : ℚ) :
    Except String (TType × Sentiment) :=
  let dp := dpOf info.prices
  match mkts with
  | [] => .error "IndexError"
  | m0 :: _ =>
    match m0.price with
    | .error e => .error e
    | .ok p =>
      match Fundamentalist.evaluate (m0.dividend access) m0.risk_free with
      | .error e => .error e
      | .ok pf =>
        let r := pf * m0.risk_free
        let R := mean info.lastReturns
        match (if u_type = TType.Chartist
               then Chartist.change_sentiment mkts sentiment info a1 a2 v1 E uSent
               else .ok sentiment) with
        | .error e => .error e
        | .ok s1 =>
          let U1 := stratU1 a3 v2 s r dp p R pf
          let U2 := stratU2 a3 v2 s r dp p R pf
          if u_type = TType.Chartist then
            match s1 with
            | .Optimistic =>
              if u1 < v2 * nOptChartistsOf info / (nTraders info * E U1) then
                .ok (TType.Fundamentalist, s1)
              else .ok (TType.Chartist, s1)
            | .Pessimistic =>
              if u1 < v2 * nPessChartistsOf info / (nTraders info * E U2) then
                .ok (TType.Fundamentalist, s1)
              else .ok (TType.Chartist, s1)
          else if u_type = TType.Fundamentalist then
            let st1 : TType × Sentiment :=
              if u1 < v2 * nFundamentalistsOf info / (nTraders info * E (-U1))
                  ∧ s1 = Sentiment.Pessimistic then
                (TType.Chartist, Sentiment.Optimistic)
              else (u_type, s1)
            if u2 < v2 * nFundamentalistsOf info / (nTraders info * E (-U2))
                ∧ st1.2 = Sentiment.Optimistic then
              .ok (TType.Chartist, Sentiment.Pessimistic)
            else .ok st1
          else .ok (u_type, s1)

/-- Kind constructors are distinct: used to reduce branch guards. -/
theorem ttype_fund_ne_chartist : (TType.Fundamentalist = TType.Chartist) = False := by
  simp

/-- Sentiment constructors are distinct: used to reduce branch guards. -/
theorem sent_pess_ne_opt : (Sentiment.Pessimistic = Sentiment.Optimistic) = False := by
  simp

/-- Sentiment constructors are distinct, the other orientation. -/
theorem sent_opt_ne_pess : (Sentiment.Optimistic = Sentiment.Pessimistic) = False := by
  simp

/-- An info snapshot with one fundamentalist trader. -/
def infoF : SimInfo := ⟨[(TType.Fundamentalist, Sentiment.Optimistic)], [], [], [], [0]⟩

/-- C8 is refuted at a concrete state: a Universalist that is a
Fundamentalist with frozen (last-held) sentiment Optimistic and switch
probability 1 resumes as a Chartist with sentiment Pessimistic, the
opposite of the sentiment it held - the transition rules overwrite rather
than preserve the sentiment. -/
theorem claim_C8_counterexample :
    Universalist.change_strategy [exW] TType.Fundamentalist Sentiment.Optimistic 1 infoF
      1 1 1 (1/10) 1 (1/10) (fun _ => 1) 0 0 0 =
      .ok (TType.Chartist, Sentiment.Pessimistic) ∧
    Sentiment.Pessimistic ≠ Sentiment.Optimistic := by
  constructor
  · norm_num [Universalist.change_strategy, ExchangeAgent.price, ExchangeAgent.spread,
      ExchangeAgent.dividend, Fundamentalist.evaluate, stratU1, stratU2, mean, dpOf,
      nFundamentalistsOf, nTraders, infoF, exW, oA, oB, pyRound1, pyRound, Except.map,
      ttype_fund_ne_chartist, sent_pess_ne_opt, sent_opt_ne_pess]
  · exact fun h => Sentiment.noConfusion h

/-- C8 amended: a Universalist leaves the Chartist kind only through the
switch rule of change_strategy, evaluated against a fresh draw on the
sentiment as just updated by change_sentiment in the same call; but on a
Fundamentalist to Chartist transition the sentiment is not preserved: the
rule gated on a Pessimistic frozen sentiment installs Optimistic, the rule
gated on an Optimistic current sentiment installs Pessimistic, and with a
Pessimistic frozen sentiment both rules can fire in one call, ending
Chartist-Pessimistic. -/
theorem claim_C8_strategy_switch
    (mkts : List ExchangeAgent) (m0 : ExchangeAgent) (rest : List ExchangeAgent)
    (access : ℕ) (info : SimInfo) (a1 a2 a3 v1 v2 s : ℚ) (E : ℚ → ℚ)
    (uSent u1 u2 : ℚ) (p pf : ℚ) (s0 s1 : Sentiment)
    (hm : mkts = m0 :: rest)
    (hp : m0.price = .ok p)
    (hpf : Fundamentalist.evaluate (m0.dividend access) m0.risk_free = .ok pf)
    (hcs : Chartist.change_sentiment mkts s0 info a1 a2 v1 E uSent = .ok s1) :
    Universalist.change_strategy mkts TType.Chartist s0 access info a1 a2 a3 v1 v2 s E uSent u1 u2 =
      .ok (match s1 with
        | .Optimistic =>
          if u1 < v2 * nOptChartistsOf info / (nTraders info *
              E (stratU1 a3 v2 s (pf * m0.risk_free) (dpOf info.prices) p (mean info.lastReturns) pf))
          then (TType.Fundamentalist, s1) else (TType.Chartist, s1)
        | .Pessimistic =>
          if u1 < v2 * nPessChartistsOf info / (nTraders info *
              E (stratU2 a3 v2 s (pf * m0.risk_free) (dpOf info.prices) p (mean info.lastReturns) pf))
          then (TType.Fundamentalist, s1) else (TType.Chartist, s1)) ∧
    Universalist.change_strategy mkts TType.Fundamentalist Sentiment.Pessimistic access info
        a1 a2 a3 v1 v2 s E uSent u1 u2 =
      .ok (if u1 < v2 * nFundamentalistsOf info / (nTraders info *
              E (-stratU1 a3 v2 s (pf * m0.risk_free) (dpOf info.prices) p (mean info.lastReturns) pf))
           then (if u2 < v2 * nFundamentalistsOf info / (nTraders info *
                    E (-stratU2 a3 v2 s (pf * m0.risk_free) (dpOf info.prices) p (mean info.lastReturns) pf))
                 then (TType.Chartist, Sentiment.Pessimistic)
                 else (TType.Chartist, Sentiment.Optimistic))
           else (TType.Fundamentalist, Sentiment.Pessimistic)) ∧
    Universalist.change_strategy mkts TType.Fundamentalist Sentiment.Optimistic access info
        a1 a2 a3 v1 v2 s E uSent u1 u2 =
      .ok (if u2 < v2 * nFundamentalistsOf info / (nTraders info *
              E (-stratU2 a3 v2 s (pf * m0.risk_free) (dpOf info.prices) p (mean info.lastReturns) pf))
           then (TType.Chartist, Sentiment.Pessimistic)
           else (TType.Fundamentalist, Sentiment.Optimistic)) := by
  subst hm
  have hcs2 := hcs
  refine ⟨?_, ?_, ?_⟩
  · simp only [Universalist.change_strategy, hp, hpf, if_pos rfl, hcs2]
    cases s1 <;> split_ifs <;> rfl
  · simp only [Universalist.change_strategy, hp, hpf, ttype_fund_ne_chartist, if_false,
      eq_self_iff_true, if_true, sent_pess_ne_opt, and_false, and_true]
    split_ifs <;> simp_all
  · simp only [Universalist.change_strategy, hp, hpf, ttype_fund_ne_chartist, if_false,
      eq_self_iff_true, if_true, sent_pess_ne_opt, and_false, and_true]
    split_ifs <;> simp_all

/-- An info snapshot with one chartist (optimistic) and one fundamentalist
trader. -/
def infoU : SimInfo :=
  ⟨[(TType.Chartist, Sentiment.Optimistic), (TType.Fundamentalist, Sentiment.Pessimistic)],
   [TType.Chartist], [Sentiment.Optimistic], [], [0]⟩

/-- Witness for C8's amended theorem at one venue priced 100, `E = const 1`
and switch probability 1/2 against draws 0: the Chartist-Optimistic state
switches to Fundamentalist keeping its sentiment, and both Fundamentalist
states resume as Chartist-Pessimistic. -/
theorem claim_C8_witness :
    Universalist.change_strategy [exW] TType.Chartist Sentiment.Optimistic 1 infoU
      1 1 1 (1/10) 1 (1/10) (fun _ => 1) (1/2) 0 0 =
      .ok (TType.Fundamentalist, Sentiment.Optimistic) ∧
    Universalist.change_strategy [exW] TType.Fundamentalist Sentiment.Pessimistic 1 infoU
      1 1 1 (1/10) 1 (1/10) (fun _ => 1) (1/2) 0 0 =
      .ok (TType.Chartist, Sentiment.Pessimistic) ∧
    Universalist.change_strategy [exW] TType.Fundamentalist Sentiment.Optimistic 1 infoU
      1 1 1 (1/10) 1 (1/10) (fun _ => 1) (1/2) 0 0 =
      .ok (TType.Chartist, Sentiment.Pessimistic) := by
  have hp : exW.price = .ok 100 := by
    norm_num [ExchangeAgent.price, ExchangeAgent.spread, exW, oA, oB, pyRound1, pyRound,
      Except.map]
  have hpf : Fundamentalist.evaluate (exW.dividend 1) exW.risk_free = .ok 100 := by
    norm_num [Fundamentalist.evaluate, ExchangeAgent.dividend, exW]
  have hcs : Chartist.change_sentiment [exW] Sentiment.Optimistic infoU 1 1 (1/10)
      (fun _ => 1) (1/2) = .ok Sentiment.Optimistic := by
    have hps : venuePrices [exW] = .ok [100] := by
      norm_num [venuePrices, ExchangeAgent.price, ExchangeAgent.spread, exW, oA, oB,
        pyRound1, pyRound, Except.map]
    norm_num [Chartist.change_sentiment, hps, pyMin, dpOf, infoU,
      nChartistsOf, nOptimisticOf, nPessimistsOf, nTraders]
  have h := claim_C8_strategy_switch [exW] exW [] 1 infoU 1 1 1 (1/10) 1 (1/10)
    (fun _ => 1) (1/2) 0 0 100 100 Sentiment.Optimistic Sentiment.Optimistic
    rfl hp hpf hcs
  refine ⟨?_, ?_, ?_⟩
  · rw [h.1]
    norm_num [nOptChartistsOf, nTraders, infoU, List.countP, List.countP.go,
      show decide (TType.Fundamentalist = TType.Chartist) = false from rfl,
      show decide (TType.Chartist = TType.Fundamentalist) = false from rfl,
      show decide (TType.Chartist = TType.Chartist) = true from rfl,
      show decide (Sentiment.Pessimistic = Sentiment.Optimistic) = false from rfl,
      show decide (Sentiment.Optimistic = Sentiment.Pessimistic) = false from rfl,
      show decide (Sentiment.Optimistic = Sentiment.Optimistic) = true from rfl,
      show decide (Sentiment.Pessimistic = Sentiment.Pessimistic) = true from rfl]
  · rw [h.2.1]
    norm_num [nFundamentalistsOf, nTraders, infoU, List.countP, List.countP.go,
      show decide (TType.Fundamentalist = TType.Chartist) = false from rfl,
      show decide (TType.Chartist = TType.Fundamentalist) = false from rfl,
      show decide (TType.Chartist = TType.Chartist) = true from rfl,
      show decide (Sentiment.Pessimistic = Sentiment.Optimistic) = false from rfl,
      show decide (Sentiment.Optimistic = Sentiment.Pessimistic) = false from rfl,
      show decide (Sentiment.Optimistic = Sentiment.Optimistic) = true from rfl,
      show decide (Sentiment.Pessimistic = Sentiment.Pessimistic) = true from rfl]
  · rw [h.2.2]
    norm_num [nFundamentalistsOf, nTraders, infoU, List.countP, List.countP.go,
      show decide (TType.Fundamentalist = TType.Chartist) = false from rfl,
      show decide (TType.Chartist = TType.Fundamentalist) = false from rfl,
      show decide (TType.Chartist = TType.Chartist) = true from rfl,
      show decide (Sentiment.Pessimistic = Sentiment.Optimistic) = false from rfl,
      show decide (Sentiment.Optimistic = Sentiment.Pessimistic) = false from rfl,
      show decide (Sentiment.Optimistic = Sentiment.Optimistic) = true from rfl,
      show decide (Sentiment.Pessimistic = Sentiment.Pessimistic) = true from rfl]

/-- `Random.draw_price` (lines 265-286): with the in/out draw below 0.35
the price is the uniform variate within the spread (passed as `uVal`);
otherwise the exponential delta is subtracted from the best bid or added
to the best ask. -/
def Random.draw_price (order_type : Side) (sp : SpreadQ) (uInOut uVal delta : ℚ) : ℚ :=
  if uInOut < 35/100 then uVal
  else
    match order_type with
    | .bid => sp.bid - delta
    | .ask => sp.ask + delta

/-- The list `[markets[i].spread() for i in range(len(markets))]` of
`Random.call` line 300; the first spread exception propagates, so the
Python `filter(lambda x: x is not None, ...)` around it never removes
anything and is omitted. -/
def venueSpreads : List ExchangeAgent → Except String (List SpreadQ)
  | [] => .ok []
  | m :: ms =>
    match m.spread with
    | .error e => .error e
    | .ok sp =>
      match venueSpreads ms with
      | .error e => .error e
      | .ok ss => .ok (sp :: ss)

/-- Python `min` applied to the spread dicts (line 303): on an empty list
`min` raises `ValueError` (unreachable here: the length-0 case returns
earlier); a single element is returned without comparison; with two or
more elements Python compares dicts with `<`, which dicts do not support,
raising `TypeError`. -/
def pyMinDicts : List SpreadQ → Except String SpreadQ
  | [] => .error "ValueError"
  | [sp] => .ok sp
  | _ :: _ :: _ => .error "TypeError: dict comparison"

/-- `Random.call` (lines 299-333).  Draws are explicit: `uSide` picks the
side (`bid` iff above 0.5), `v` the regime, `quantity` the drawn size,
`uInOut`/`uVal`/`delta` feed `draw_price`, and `cancelIdx` is the uniform
cancellation index.  The spread list and its `min` are computed before any
branching, exactly as in the source. -/
def Random.call (mkts : List ExchangeAgent) (tr : Trader)
    (uSide v : ℚ) (quantity : ℤ) (uInOut uVal delta : ℚ) (cancelIdx : ℕ) :
    Except String (List ExchangeAgent × Trader) :=
  match venueSpreads mkts with
  | .error e => .error e
  | .ok spreads =>
    if spreads.length = 0 then .ok (mkts, tr)
    else
      match pyMinDicts spreads with
      | .error e => .error e
      | .ok sp =>
        let order_type : Side := if 1/2 < uSide then .bid else .ask
        if 85/100 < v then
          match order_type with
          | .bid => (Trader.buy_market mkts tr quantity none).map (fun r => (r.1, tr))
          | .ask => (Trader.sell_market mkts tr quantity none).map (fun r => (r.1, tr))
        else if 1/2 < v then
          let price := Random.draw_price order_type sp uInOut uVal delta
          match order_type with
          | .bid => (Trader.buy_limit mkts tr quantity price 0).map (fun r => (r.1, r.2.1))
          | .ask => (Trader.sell_limit mkts tr quantity price 0).map (fun r => (r.1, r.2.1))
        else if v < 35/100 then
          if tr.orders.isEmpty then .ok (mkts, tr)
          else
            match tr.orders[cancelIdx]? with
            | none => .error "IndexError"
            | some o => Trader.cancel_order mkts tr o
        else .ok (mkts, tr)

/-- C9 is refuted with two venues whose spreads are both available: `min`
over the two spread dicts is evaluated before any branching and raises
(`TypeError`: dicts admit no ordering), so no branch uses a "narrowest"
spread - Random.call only works with a single venue. -/
theorem claim_C9_counterexample :
    Random.call [exW, exC] trW (3/4) (7/10) 2 (1/2) 0 (3/2) 0 =
      .error "TypeError: dict comparison" ∧
    exW.spread = .ok ⟨99, 101⟩ ∧ exC.spread = .ok ⟨120, 50⟩ := by
  refine ⟨?_, ?_, ?_⟩
  · norm_num [Random.call, venueSpreads, pyMinDicts, ExchangeAgent.spread, exW, exC, oA, oB]
  · norm_num [ExchangeAgent.spread, exW, oA, oB]
  · norm_num [ExchangeAgent.spread, exC]

/-- C9 amended: the spread list and its `min` are computed on entry, so
with exactly one venue whose spread is available the limit-order branch
(`0.5 < v <= 0.85`) places on venue 0 with the drawn quantity and a price
from `draw_price` on that venue's spread - uniform inside the spread with
probability 0.35, otherwise `best_bid - delta` for a bid or
`best_ask + delta` for an ask; with no venues the call is a no-op; a venue
with an empty book side makes the whole call raise; and with two or more
venues the dict-`min` raises before any branch runs. -/
theorem claim_C9_random_call
    (ex1 : ExchangeAgent) (tr : Trader) (sp1 : SpreadQ)
    (hsp1 : ex1.spread = .ok sp1)
    (ub ua v : ℚ) (q : ℤ) (uInOut uVal delta : ℚ) (ci : ℕ)
    (hub : 1/2 < ub) (hua : ¬ 1/2 < ua) (hv1 : 1/2 < v) (hv2 : ¬ 85/100 < v)
    (mkts2 : List ExchangeAgent) (s1 s2 : SpreadQ) (ss : List SpreadQ)
    (hvs2 : venueSpreads mkts2 = .ok (s1 :: s2 :: ss))
    (mktsE : List ExchangeAgent) (eMsg : String)
    (hvsE : venueSpreads mktsE = .error eMsg) :
    Random.call [ex1] tr ub v q uInOut uVal delta ci =
      (Trader.buy_limit [ex1] tr q (Random.draw_price .bid sp1 uInOut uVal delta) 0).map
        (fun r => (r.1, r.2.1)) ∧
    Random.call [ex1] tr ua v q uInOut uVal delta ci =
      (Trader.sell_limit [ex1] tr q (Random.draw_price .ask sp1 uInOut uVal delta) 0).map
        (fun r => (r.1, r.2.1)) ∧
    Random.call [] tr ub v q uInOut uVal delta ci = .ok ([], tr) ∧
    Random.call mkts2 tr ub v q uInOut uVal delta ci = .error "TypeError: dict comparison" ∧
    Random.call mktsE tr ub v q uInOut uVal delta ci = .error eMsg := by
  have hvs1 : venueSpreads [ex1] = .ok [sp1] := by
    simp only [venueSpreads, hsp1]
  have hlen : ¬ (([sp1] : List SpreadQ).length = 0) := by norm_num
  refine ⟨?_, ?_, ?_, ?_, ?_⟩
  · simp only [Random.call, hvs1, pyMinDicts]
    rw [if_neg hlen, if_pos hub, if_neg hv2, if_pos hv1]
  · simp only [Random.call, hvs1, pyMinDicts]
    rw [if_neg hlen, if_neg hua, if_neg hv2, if_pos hv1]
  · simp only [Random.call, venueSpreads]
    norm_num
  · simp only [Random.call, hvs2, pyMinDicts]
    norm_num
  · simp only [Random.call, hvsE]

/-- Witness for C9's amended theorem: one venue with spread 99/101, a bid
draw and a limit-regime draw with an out-of-spread price draw `delta`
above 0.35, so the bid price is `99 - 3/2 = 97.5`; plus the no-venue
no-op, the two-venue `TypeError`, and the empty-side propagation. -/
theorem claim_C9_witness :
    Random.call [exW] trW (3/4) (7/10) 2 (1/2) 0 (3/2) 0 =
      .ok ([⟨[oB, ⟨195/2, 2, .bid, 0, some 7⟩], [oA], [1/20], 1/2000, 0⟩],
           ⟨7, 1000, [0, 0], [⟨195/2, 2, .bid, 0, some 7⟩]⟩) ∧
    Random.call [] trW (3/4) (7/10) 2 (1/2) 0 (3/2) 0 = .ok ([], trW) ∧
    Random.call [exW, exC] trW (3/4) (7/10) 2 (1/2) 0 (3/2) 0 =
      .error "TypeError: dict comparison" ∧
    Random.call [exEmptyBid] trW (3/4) (7/10) 2 (1/2) 0 (3/2) 0 =
      .error "There no either bid or ask orders" := by
  have h := claim_C9_random_call exW trW ⟨99, 101⟩
    (by norm_num [ExchangeAgent.spread, exW, oA, oB])
    (3/4) (1/4) (7/10) 2 (1/2) 0 (3/2) 0
    (by norm_num) (by norm_num) (by norm_num) (by norm_num)
    [exW, exC] ⟨99, 101⟩ ⟨120, 50⟩ []
    (by norm_num [venueSpreads, ExchangeAgent.spread, exW, exC, oA, oB])
    [exEmptyBid] "There no either bid or ask orders"
    (by norm_num [venueSpreads, ExchangeAgent.spread, exEmptyBid])
  refine ⟨?_, h.2.2.1, h.2.2.2.1, h.2.2.2.2⟩
  rw [h.1]
  norm_num [Trader.buy_limit, Random.draw_price, ExchangeAgent.limit_order,
    ExchangeAgent.spread, olInsert, moreAggressive, pyRound1, pyRound, exW, oA, oB, trW,
    Except.map]

/-- The sentiment venue-selection loop of `Chartist.call` (lines 449-452
and 466-469), over the list of venue prices: the first index with the
strictly smallest price. -/
def argFirstMin (ps : List ℚ) : ℕ :=
  (List.range ps.length).foldl (fun mn i => if ps.getD i 0 < ps.getD mn 0 then i else mn) 0

/-- The first index with the strictly largest price, mirror of
`argFirstMin`. -/
def argFirstMax (ps : List ℚ) : ℕ :=
  (List.range ps.length).foldl (fun mx i => if ps.getD mx 0 < ps.getD i 0 then i else mx) 0

/-- `Chartist.call` (lines 445-481).  The draws are explicit: the regime
draw `random_state`, the drawn `quantity`, and the `draw_price` inputs.
The sentiment venue (lowest `price()` when Optimistic, highest when
Pessimistic) is computed first and its transaction cost and spread are
read; the market-order branch then calls `_buy_market`/`_sell_market`
without a venue argument, while the limit-order branch places on the
sentiment venue. -/
def Chartist.call (mkts : List ExchangeAgent) (tr : Trader) (sentiment : Sentiment)
    (random_state : ℚ) (quantity : ℤ) (uInOut uVal delta : ℚ) :
    Except String (List ExchangeAgent × Trader) :=
  match sentiment with
  | .Optimistic =>
    match venuePrices mkts with
    | .error e => .error e
    | .ok ps =>
      let mn_index := argFirstMin ps
      match mkts[mn_index]? with
      | none => .error "IndexError"
      | some exm =>
        let t_cost := exm.transaction_cost
        match exm.spread with
        | .error e => .error e
        | .ok sp =>
          if 85/100 < random_state then
            (Trader.buy_market mkts tr quantity none).map (fun r => (r.1, tr))
          else if 1/2 < random_state then
            (Trader.buy_limit mkts tr quantity
              (Random.draw_price .bid sp uInOut uVal delta * (1 - t_cost)) mn_index).map
              (fun r => (r.1, r.2.1))
          else if random_state < 35/100 then
            match tr.orders.getLast? with
            | none => .ok (mkts, tr)
            | some o => Trader.cancel_order mkts tr o
          else .ok (mkts, tr)
  | .Pessimistic =>
    match venuePrices mkts with
    | .error e => .error e
    | .ok ps =>
      let mx_index := argFirstMax ps
      match mkts[mx_index]? with
      | none => .error "IndexError"
      | some exm =>
        let t_cost := exm.transaction_cost
        match exm.spread with
        | .error e => .error e
        | .ok sp =>
          if 85/100 < random_state then
            (Trader.sell_market mkts tr quantity none).map (fun r => (r.1, tr))
          else if 1/2 < random_state then
            (Trader.sell_limit mkts tr quantity
              (Random.draw_price .ask sp uInOut uVal delta * (1 + t_cost)) mx_index).map
              (fun r => (r.1, r.2.1))
          else if random_state < 35/100 then
            match tr.orders.getLast? with
            | none => .ok (mkts, tr)
            | some o => Trader.cancel_order mkts tr o
          else .ok (mkts, tr)

/-- A venue with mid price 9.5 but a worst ask of 50. -/
def exD0 : ExchangeAgent :=
  ⟨[⟨9, 1, .bid, 0, none⟩], [⟨10, 1, .ask, 0, none⟩, ⟨50, 1, .ask, 0, none⟩], [1/20], 1/2000, 0⟩

/-- A venue with mid price 10 and a worst ask of 12. -/
def exD1 : ExchangeAgent :=
  ⟨[⟨9, 1, .bid, 0, none⟩], [⟨11, 1, .ask, 0, none⟩, ⟨12, 1, .ask, 0, none⟩], [1/20], 1/2000, 0⟩

/-- C10: the market-order branch of `Chartist.call` invokes the market
primitives without the sentiment venue index, so the book effect equals
`_buy_market`/`_sell_market` with `market = none`, routed by their own
worst-resting-price selection; only the limit branch places on the
sentiment venue.  On the concrete pair `[exD0, exD1]` the sentiment
selection picks venue 0 (cheapest mid 9.5) while the market routing picks
venue 1 (lowest worst ask 12). -/
theorem claim_C10_chartist_routing
    (mkts : List ExchangeAgent) (tr : Trader) (ps : List ℚ)
    (exm exx : ExchangeAgent) (spm spx : SpreadQ)
    (hps : venuePrices mkts = .ok ps)
    (hexm : mkts[argFirstMin ps]? = some exm) (hspm : exm.spread = .ok spm)
    (hexx : mkts[argFirstMax ps]? = some exx) (hspx : exx.spread = .ok spx)
    (rsM rsL : ℚ) (q : ℤ) (uInOut uVal delta : ℚ)
    (hM : 85/100 < rsM) (hL1 : 1/2 < rsL) (hL2 : ¬ 85/100 < rsL) :
    Chartist.call mkts tr .Optimistic rsM q uInOut uVal delta =
      (Trader.buy_market mkts tr q none).map (fun r => (r.1, tr)) ∧
    Chartist.call mkts tr .Pessimistic rsM q uInOut uVal delta =
      (Trader.sell_market mkts tr q none).map (fun r => (r.1, tr)) ∧
    Chartist.call mkts tr .Optimistic rsL q uInOut uVal delta =
      (Trader.buy_limit mkts tr q
        (Random.draw_price .bid spm uInOut uVal delta * (1 - exm.transaction_cost))
        (argFirstMin ps)).map (fun r => (r.1, r.2.1)) ∧
    Chartist.call mkts tr .Pessimistic rsL q uInOut uVal delta =
      (Trader.sell_limit mkts tr q
        (Random.draw_price .ask spx uInOut uVal delta * (1 + exx.transaction_cost))
        (argFirstMax ps)).map (fun r => (r.1, r.2.1)) ∧
    venuePrices [exD0, exD1] = .ok [19/2, 10] ∧
    argFirstMin [19/2, 10] = 0 ∧
    buyMarketSelect [exD0, exD1] = 1 := by
  refine ⟨?_, ?_, ?_, ?_, ?_, ?_, ?_⟩
  · simp only [Chartist.call, hps, hexm, hspm]
    rw [if_pos hM]
  · simp only [Chartist.call, hps, hexx, hspx]
    rw [if_pos hM]
  · simp only [Chartist.call, hps, hexm, hspm]
    rw [if_neg hL2, if_pos hL1]
  · simp only [Chartist.call, hps, hexx, hspx]
    rw [if_neg hL2, if_pos hL1]
  · norm_num [venuePrices, ExchangeAgent.price, ExchangeAgent.spread, exD0, exD1,
      pyRound1, pyRound, Except.map]
  · norm_num [argFirstMin, show List.range 2 = [0, 1] from rfl]
  · norm_num [buyMarketSelect, selMinStep, lastAskPrice, olLast, exD0, exD1,
      show List.range 2 = [0, 1] from rfl]

/-- Witness for C10 at the two-venue fixture: the Optimistic market branch
executes on venue 1 (chosen by worst-ask routing, filling the 11 ask)
although the sentiment venue is 0, and the limit branch places on venue 0. -/
theorem claim_C10_witness :
    Chartist.call [exD0, exD1] trW .Optimistic (9/10) 1 (1/2) 0 (3/2) =
      (Trader.buy_market [exD0, exD1] trW 1 none).map (fun r => (r.1, trW)) ∧
    Trader.buy_market [exD0, exD1] trW 1 none =
      .ok ([exD0, ⟨[⟨9, 1, .bid, 0, none⟩], [⟨12, 1, .ask, 0, none⟩], [1/20], 1/2000, 0⟩], 0) ∧
    Chartist.call [exD0, exD1] trW .Optimistic (7/10) 1 (1/2) 0 (3/2) =
      (Trader.buy_limit [exD0, exD1] trW 1
        (Random.draw_price .bid ⟨9, 10⟩ (1/2) 0 (3/2) * (1 - 0)) 0).map
        (fun r => (r.1, r.2.1)) := by
  have hps : venuePrices [exD0, exD1] = .ok [19/2, 10] := by
    norm_num [venuePrices, ExchangeAgent.price, ExchangeAgent.spread, exD0, exD1,
      pyRound1, pyRound, Except.map]
  have hmin : argFirstMin [(19 : ℚ)/2, 10] = 0 := by
    norm_num [argFirstMin, show List.range 2 = [0, 1] from rfl]
  have hmax : argFirstMax [(19 : ℚ)/2, 10] = 1 := by
    norm_num [argFirstMax, show List.range 2 = [0, 1] from rfl]
  have h := claim_C10_chartist_routing [exD0, exD1] trW [19/2, 10]
    exD0 exD1 ⟨9, 10⟩ ⟨9, 11⟩ hps
    (by rw [hmin]; rfl) (by norm_num [ExchangeAgent.spread, exD0])
    (by rw [hmax]; rfl) (by norm_num [ExchangeAgent.spread, exD1])
    (9/10) (7/10) 1 (1/2) 0 (3/2)
    (by norm_num) (by norm_num) (by norm_num)
  refine ⟨h.1, ?_, ?_⟩
  · norm_num [Trader.buy_market, buyMarketSelect, selMinStep, lastAskPrice, olLast,
      ExchangeAgent.market_order, fulfill, priceCompatible, exD0, exD1, trW,
      show List.range 2 = [0, 1] from rfl]
  · have h3 := h.2.2.1
    rw [hmin] at h3
    have hc : exD0.transaction_cost = 0 := rfl
    rw [hc] at h3
    exact h3

end ABM
